import Mathlib

/-!
Shallow embedding of the battleship game engine (`main.py`) and proofs about
its shot resolver, placement validator, turn controller and targeting
heuristic.

Grids are 10×10 lists of single-character cell symbols
(`'~'` empty, `'O'` ship, `'X'` hit, `'F'` miss, `'H'` sunk), exactly as in
the source.  List indexing follows Python semantics: a negative index within
`-len ≤ i < 0` wraps around to `len + i`, anything further out of range is an
`IndexError`, modelled by `Option`/`none`.  The global `juego_actual` dict is
the `GameState` structure; every route handler is a pure function from the
pre-call state (plus its request parameters and, for the computer turn, the
coordinate that `obtener_disparo_ia` came up with) to the post-call state
together with an `Outcome` (normal response, `HTTPException`, or an uncaught
exception).  The `historial_disparos_ia` list only feeds the oracle prompt
and never influences `juego_actual`, so it is not part of the modelled state.
-/

namespace HundirLaFlota

/-- Python list indexing: for `0 ≤ i < n` the index is `i`; for
`-n ≤ i < 0` it wraps to `n + i`; otherwise `IndexError` (`none`). -/
def pyIdx (n : Nat) (i : Int) : Option Nat :=
  if 0 ≤ i then (if i < (n : Int) then some i.toNat else none)
  else (if 0 ≤ i + (n : Int) then some (i + (n : Int)).toNat else none)

/-- Python `l[i]` (read). -/
def pyGet {α : Type} (l : List α) (i : Int) : Option α :=
  (pyIdx l.length i).bind fun k => l[k]?

/-- Python `l[i] = a` (write); `none` models `IndexError`. -/
def pySet {α : Type} (l : List α) (i : Int) (a : α) : Option (List α) :=
  (pyIdx l.length i).map fun k => l.set k a

/-- A board: list of rows of cell symbols. -/
abbrev Grid := List (List Char)

/-- Python `tablero[x][y]` (read). -/
def gridGet (g : Grid) (x y : Int) : Option Char :=
  (pyGet g x).bind fun row => pyGet row y

/-- Python `tablero[x][y] = c`: the row is fetched and mutated in place. -/
def gridSet (g : Grid) (x y : Int) (c : Char) : Option Grid :=
  (pyGet g x).bind fun row => (pySet row y c).bind fun row' => pySet g x row'

/-- Total read used where the source always indexes with `0 ≤ i, j < 10`
inside a 10×10 board (loops `for i in range(10)`). -/
def cellN (g : Grid) (i j : Nat) : Char :=
  (g[i]?.bind fun row => row[j]?).getD '~'

/-- `crear_tablero`: a 10×10 board of water. -/
def crear_tablero : Grid := List.replicate 10 (List.replicate 10 '~')

/-- A ship (`Barco` dict in the source). -/
structure Barco where
  nombre : String
  posiciones : List (Int × Int)
  impactos : Nat
  hundido : Bool
deriving DecidableEq, Repr

/-- One side's boards (`TableroState`): own board, shot record against the
opponent, and the own fleet. -/
structure TableroState where
  tablero : Grid
  tablero_disparos : Grid
  barcos : List Barco
deriving DecidableEq, Repr

/-- The global `juego_actual` dict. -/
structure GameState where
  tablero_jugador : TableroState
  tablero_ia : TableroState
  turno_jugador : Bool
  mensaje : String
  fase : String
  game_over : Bool
  ganador : Option String
deriving DecidableEq, Repr

/-- How a route handler call ends: a normal (HTTP 200) response, an
`HTTPException`, or an uncaught exception (e.g. `IndexError`/`TypeError`). -/
inductive Outcome where
  | ok : Outcome
  | httpErr : String → Outcome
  | crash : Outcome
deriving DecidableEq, Repr

/-- `barcos_config`: the ship catalog (name, length). -/
def barcos_config : List (String × Nat) :=
  [("Portaaviones", 5), ("Acorazado", 4), ("Crucero", 3),
   ("Submarino", 3), ("Destructor", 2)]

/-- `todos_barcos_hundidos`. -/
def todos_barcos_hundidos (barcos : List Barco) : Bool :=
  barcos.all (·.hundido)

/-- Smallest element, as Python `min` on a non-empty list. -/
def listMin (l : List Int) : Int := l.foldl min (l.headD 0)

/-- Largest element, as Python `max` on a non-empty list. -/
def listMax (l : List Int) : Int := l.foldl max (l.headD 0)

/-- Python `list(range(a, b))` over integers. -/
def intRange (a b : Int) : List Int :=
  (List.range (b - a).toNat).map fun k : Nat => a + (k : Int)

/-- `validar_posicion_barco`: bounds, free cells, straight line, and the
sorted aligned coordinates must equal `range(min, max + 1)`.  Python's
`sorted` is modelled by `insertionSort (· ≤ ·)`: on a total order the sorted
rearrangement of a list is unique, so any sort gives the same list. -/
def validar_posicion_barco (tablero : Grid) (posiciones : List (Int × Int)) : Bool :=
  if ¬ posiciones.all (fun p => decide (0 ≤ p.1 ∧ p.1 < 10 ∧ 0 ≤ p.2 ∧ p.2 < 10)) then
    false
  else if ¬ posiciones.all (fun p => decide (gridGet tablero p.1 p.2 = some '~')) then
    false
  else if posiciones.length ≤ 1 then
    true
  else
    let cab := posiciones.headD (0, 0)
    let es_horizontal := posiciones.all fun p => decide (p.1 = cab.1)
    let es_vertical := posiciones.all fun p => decide (p.2 = cab.2)
    if ¬ (es_horizontal || es_vertical) then
      false
    else if es_horizontal then
      let ys := posiciones.map (·.2)
      decide (ys.insertionSort (· ≤ ·) = intRange (listMin ys) (listMax ys + 1))
    else
      let xs := posiciones.map (·.1)
      decide (xs.insertionSort (· ≤ ·) = intRange (listMin xs) (listMax xs + 1))

/-- The `for barco in barcos` loop inside `procesar_disparo`'s `'O'` branch:
find the first ship containing `(x, y)`, bump its hit counter, and build the
result triple.  `none` models the fall-through (no ship claims an `'O'`
cell), where the Python function implicitly returns `None` and the caller's
tuple unpacking raises. -/
def dispararBarcos (x y : Int) : List Barco → Option (List Barco × String × Bool × Option String)
  | [] => none
  | b :: rest =>
    if (x, y) ∈ b.posiciones then
      let b' : Barco := { b with impactos := b.impactos + 1 }
      if b'.impactos = b.posiciones.length then
        some ({ b' with hundido := true } :: rest,
              "¡HUNDIDO! Has hundido el " ++ b.nombre, true, some b.nombre)
      else
        some (b' :: rest, "¡TOCADO! Has acertado en un barco", true, none)
    else
      (dispararBarcos x y rest).map fun r => (b :: r.1, r.2)

/-- `procesar_disparo` on the defender's own board.  Returns the mutated
board and fleet together with the result triple; the `'X'` write in the hit
branch happens before the ship scan, so it is applied even on the `none`
fall-through.  (The source always calls this with a 10×10 board, so the
in-bounds `getD` defaults are never taken.) -/
def procesar_disparo (tablero : Grid) (barcos : List Barco) (x y : Int) :
    Grid × List Barco × Option (String × Bool × Option String) :=
  if ¬ (0 ≤ x ∧ x < 10 ∧ 0 ≤ y ∧ y < 10) then
    (tablero, barcos, some ("Coordenadas fuera del tablero", false, none))
  else if gridGet tablero x y = some 'O' then
    let tablero' := (gridSet tablero x y 'X').getD tablero
    match dispararBarcos x y barcos with
    | some (barcos', res, acierto, hundido) => (tablero', barcos', some (res, acierto, hundido))
    | none => (tablero', barcos, none)
  else if gridGet tablero x y = some 'X' ∨ gridGet tablero x y = some 'F' then
    (tablero, barcos, some ("Ya has disparado aquí", false, none))
  else
    ((gridSet tablero x y 'F').getD tablero, barcos, some ("AGUA. Has fallado", false, none))

/-- Character-list version of "starts with". -/
def chPre : List Char → List Char → Bool
  | [], _ => true
  | _ :: _, [] => false
  | a :: as, b :: bs => a == b && chPre as bs

/-- Character-list version of "occurs contiguously inside". -/
def chSub (n : List Char) : List Char → Bool
  | [] => chPre n []
  | c :: t => chPre n (c :: t) || chSub n t

/-- Python `needle in hay` on strings. -/
def strHas (needle hay : String) : Bool := chSub needle.toList hay.toList

/-- Write `'H'` at every position of one ship (Python indexing, so an
out-of-range position raises). -/
def markPosiciones (t : Grid) : List (Int × Int) → Option Grid
  | [] => some t
  | p :: ps => (gridSet t p.1 p.2 'H').bind fun t' => markPosiciones t' ps

/-- The marking loop at the end of `registrar_disparo`: every ship of the
chosen fleet whose name matches and whose `hundido` flag is set gets all of
its cells overwritten with `'H'` on the shot-record board. -/
def marcarHundidos (nombre : String) (t : Grid) : List Barco → Option Grid
  | [] => some t
  | b :: bs =>
    if b.nombre = nombre ∧ b.hundido = true then
      (markPosiciones t b.posiciones).bind fun t' => marcarHundidos nombre t' bs
    else
      marcarHundidos nombre t bs

/-- `registrar_disparo`: record the shot on the shooter's shot-record board.
The fleet whose sunk ship should be fully marked is chosen by testing
whether the literal text `"IA dispara"` occurs in `resultado` — which is the
raw `procesar_disparo` message at both call sites, so the test never
succeeds and the computer's sinks are looked up in the wrong fleet. -/
def registrar_disparo (juego : GameState) (tablero_disparos : Grid) (x y : Int)
    (resultado : String) (barco_hundido : Option String) : Option Grid :=
  if strHas "TOCADO" resultado || strHas "HUNDIDO" resultado then
    (gridSet tablero_disparos x y 'X').bind fun t1 =>
      match barco_hundido with
      | none => some t1
      | some nombre =>
        (gridSet t1 x y 'H').bind fun t2 =>
          let barcos_objetivo :=
            if strHas "IA dispara" resultado then juego.tablero_jugador.barcos
            else juego.tablero_ia.barcos
          marcarHundidos nombre t2 barcos_objetivo
  else
    gridSet tablero_disparos x y 'F'

/-- One ship of a `ColocacionFlota` request body. -/
structure ColocacionBarco where
  nombre : String
  posiciones : List (Int × Int)
deriving DecidableEq, Repr

/-- Code-point lexicographic order on character lists, as Python compares
strings. -/
def chLe : List Char → List Char → Bool
  | [], _ => true
  | _ :: _, [] => false
  | a :: as, b :: bs => if a < b then true else if b < a then false else chLe as bs

/-- Python string `<=` (code-point lexicographic). -/
def strPyLe (a b : String) : Bool := chLe a.toList b.toList

/-- Write `'O'` at every position; positions have already been validated,
so the writes are in bounds and the `getD` defaults are never taken. -/
def placeAll (t : Grid) : List (Int × Int) → Grid
  | [] => t
  | p :: ps => placeAll ((gridSet t p.1 p.2 'O').getD t) ps

/-- The per-ship loop of the `/colocar-barcos` handler: look the name up in
the catalog, check the cell count, validate the position against the scratch
board, then stamp the ship onto the scratch board and append it. -/
def colocarLoop (tablero : Grid) (acc : List Barco) :
    List ColocacionBarco → Except String (Grid × List Barco)
  | [] => .ok (tablero, acc)
  | b :: rest =>
    match barcos_config.find? (fun cfg => cfg.1 == b.nombre) with
    | none => .error ("Barco desconocido: " ++ b.nombre)
    | some cfg =>
      if b.posiciones.length ≠ cfg.2 then
        .error ("El " ++ b.nombre ++ " debe tener exactamente " ++ toString cfg.2 ++ " casillas.")
      else if validar_posicion_barco tablero b.posiciones = false then
        .error ("Posición inválida para el " ++ b.nombre ++
          ". Las posiciones deben ser consecutivas y no superponerse con otros barcos.")
      else
        colocarLoop (placeAll tablero b.posiciones)
          (acc ++ [⟨b.nombre, b.posiciones, 0, false⟩]) rest

/-- The `/colocar-barcos` handler (`colocar_barcos`).  The global state is
only written after the whole submission has validated against the scratch
board, so every error leaves the input state untouched. -/
def colocar_barcos (s : GameState) (colocacion : List ColocacionBarco) : GameState × Outcome :=
  if s.fase ≠ "colocacion" then
    (s, .httpErr "Ya no estás en la fase de colocación de barcos.")
  else
    let nombres_barcos := colocacion.map (·.nombre)
    let nombres_requeridos := barcos_config.map (·.1)
    if nombres_barcos.insertionSort (fun a b => strPyLe a b = true) ≠
        nombres_requeridos.insertionSort (fun a b => strPyLe a b = true) then
      (s, .httpErr "Debes colocar todos los barcos requeridos.")
    else
      match colocarLoop crear_tablero [] colocacion with
      | .error e => (s, .httpErr e)
      | .ok (tablero, barcos_jugador) =>
        ({ s with
            tablero_jugador := { s.tablero_jugador with
              tablero := tablero, barcos := barcos_jugador },
            fase := "juego",
            mensaje := "¡Barcos colocados! Es tu turno para disparar." }, .ok)

/-- One iteration of the `while True` loop in `colocar_barco_ia`, for a
given draw of `orientacion`, `x`, `y`: succeed when all candidate cells are
water, else retry (modelled as `none`). -/
def colocar_barco_ia_once (tablero : Grid) (barcos : List Barco) (longitud : Nat)
    (nombre : String) (orientacion x y : Nat) : Option (Grid × List Barco) :=
  let posiciones : List (Int × Int) :=
    if orientacion = 0 then
      (List.range longitud).map fun i : Nat => ((x : Int), (y : Int) + (i : Int))
    else
      (List.range longitud).map fun i : Nat => ((x : Int) + (i : Int), (y : Int))
  if posiciones.all fun p => decide (gridGet tablero p.1 p.2 = some '~') then
    some (placeAll tablero posiciones, barcos ++ [⟨nombre, posiciones, 0, false⟩])
  else none

/-- The computer board after `iniciar_juego` has run `colocar_barco_ia` for
every catalog entry, for some sequence of accepted random draws. -/
inductive BuildIA : Grid → List Barco → List (String × Nat) → Grid → List Barco → Prop
  | nil (t : Grid) (bs : List Barco) : BuildIA t bs [] t bs
  | cons {t : Grid} {bs : List Barco} {cfgs : List (String × Nat)}
      {t' t'' : Grid} {bs' bs'' : List Barco}
      (cfg : String × Nat) (orientacion x y : Nat) :
      colocar_barco_ia_once t bs cfg.2 cfg.1 orientacion x y = some (t', bs') →
      BuildIA t' bs' cfgs t'' bs'' →
      BuildIA t bs (cfg :: cfgs) t'' bs''

/-- The state built by the `/iniciar-juego` handler from the auto-placed
computer board. -/
def initState (tablero_ia : Grid) (barcos_ia : List Barco) : GameState :=
  { tablero_jugador :=
      { tablero := crear_tablero, tablero_disparos := crear_tablero, barcos := [] },
    tablero_ia :=
      { tablero := tablero_ia, tablero_disparos := crear_tablero, barcos := barcos_ia },
    turno_jugador := true,
    mensaje := "Coloca tus barcos en el tablero",
    fase := "colocacion",
    game_over := false,
    ganador := none }

/-- The `/disparar` handler: the human shoots at `(x, y)`. -/
def disparar (s : GameState) (x y : Int) : GameState × Outcome :=
  if s.fase = "colocacion" then (s, .httpErr "Primero debes colocar tus barcos.")
  else if s.game_over then (s, .ok)
  else if s.turno_jugador = false then (s, .httpErr "No es tu turno.")
  else
    match procesar_disparo s.tablero_ia.tablero s.tablero_ia.barcos x y with
    | (tIA, bIA, r) =>
      let s1 := { s with tablero_ia := { s.tablero_ia with tablero := tIA, barcos := bIA } }
      match r with
      | none => (s1, .crash)
      | some (resultado, acierto, barco_hundido) =>
        match registrar_disparo s1 s1.tablero_jugador.tablero_disparos x y resultado barco_hundido with
        | none => (s1, .crash)
        | some td =>
          let s2 := { s1 with
            tablero_jugador := { s1.tablero_jugador with tablero_disparos := td },
            mensaje := "Tu disparo: " ++ resultado }
          if todos_barcos_hundidos s2.tablero_ia.barcos then
            ({ s2 with mensaje := "¡FELICIDADES! Has ganado la partida",
                       game_over := true, ganador := some "jugador" }, .ok)
          else if acierto = false then ({ s2 with turno_jugador := false }, .ok)
          else (s2, .ok)

/-- The `/turno-ia` handler, given the coordinate `(x, y)` that
`obtener_disparo_ia` produced (oracle suggestion or heuristic fallback).
The `historial_disparos_ia` bookkeeping does not touch `juego_actual` and is
omitted. -/
def turno_ia (s : GameState) (x y : Int) : GameState × Outcome :=
  if s.fase = "colocacion" then (s, .httpErr "El jugador aún debe colocar sus barcos.")
  else if s.game_over then (s, .ok)
  else if s.turno_jugador = true then (s, .httpErr "Es el turno del jugador.")
  else
    match procesar_disparo s.tablero_jugador.tablero s.tablero_jugador.barcos x y with
    | (tJ, bJ, r) =>
      let s1 := { s with tablero_jugador := { s.tablero_jugador with tablero := tJ, barcos := bJ } }
      match r with
      | none => (s1, .crash)
      | some (resultado, acierto, barco_hundido) =>
        match registrar_disparo s1 s1.tablero_ia.tablero_disparos x y resultado barco_hundido with
        | none => (s1, .crash)
        | some td =>
          let s2 := { s1 with
            tablero_ia := { s1.tablero_ia with tablero_disparos := td },
            mensaje := s!"La IA dispara a ({x}, {y}): {resultado}" }
          if todos_barcos_hundidos s2.tablero_jugador.barcos then
            ({ s2 with mensaje := "¡Has perdido! La IA ha hundido todos tus barcos.",
                       game_over := true, ganador := some "ia" }, .ok)
          else if acierto = false then ({ s2 with turno_jugador := true }, .ok)
          else (s2, .ok)

/-- `[(i, j) for i in range(10) for j in range(10)]`. -/
def todasCoordenadas : List (Nat × Nat) :=
  (List.range 10).flatMap fun i => (List.range 10).map fun j => (i, j)

/-- The `disparos_previos` set that `obtener_disparo_ia` scans off the
computer's shot-record board: all cells already marked `'X'`, `'F'` or
`'H'`. -/
def disparosPrevios (g : Grid) : List (Nat × Nat) :=
  todasCoordenadas.filter fun c =>
    cellN g c.1 c.2 == 'X' || cellN g c.1 c.2 == 'F' || cellN g c.1 c.2 == 'H'

/-- The four orthogonal search directions `[(0,1),(1,0),(0,-1),(-1,0)]`. -/
def dirsOrt : List (Int × Int) := [(0, 1), (1, 0), (0, -1), (-1, 0)]

/-- The hit-adjacency stage of `generar_coordenadas_aleatorias`, guarded by
the truthiness test on `juego_actual["tablero_ia"]["tablero_disparos"]`.
`pick` stands for `random.choice` and is only ever applied to non-empty
candidate lists. -/
def genAdyacentes (pick : List (Nat × Nat) → Nat × Nat)
    (prev : List (Nat × Nat)) (tdIA : Grid) : Option (Nat × Nat) :=
  if tdIA.isEmpty then none
  else
    let impactos := todasCoordenadas.filter fun c => cellN tdIA c.1 c.2 == 'X'
    if impactos.isEmpty then none
    else
      let candidatos := impactos.flatMap fun c =>
        dirsOrt.filterMap fun d =>
          let nx : Int := (c.1 : Int) + d.1
          let ny : Int := (c.2 : Int) + d.2
          if 0 ≤ nx ∧ nx < 10 ∧ 0 ≤ ny ∧ ny < 10 ∧ (nx.toNat, ny.toNat) ∉ prev then
            some (nx.toNat, ny.toNat)
          else none
      if candidatos.isEmpty then none else some (pick candidatos)

/-- The parity/checkerboard stage (only when more than 40 cells remain).
The minimum-remaining-ship-size fold starts at 2 and no catalog length is
below 2, so the `tamano_minimo >= 2` guard always passes, as in the
source. -/
def genParidad (pick : List (Nat × Nat) → Nat × Nat)
    (disponibles : List (Nat × Nat)) (barcosJugador : List Barco) : Option (Nat × Nat) :=
  if 40 < disponibles.length then
    let barcos_hundidos :=
      if barcosJugador.isEmpty then ([] : List String)
      else (barcosJugador.filter (·.hundido)).map (·.nombre)
    let tamano_minimo : Nat := barcos_config.foldl
      (fun m cfg => if cfg.1 ∉ barcos_hundidos ∧ cfg.2 < m then cfg.2 else m) 2
    if 2 ≤ tamano_minimo then
      let patron_paridad := disponibles.filter fun c => (c.1 + c.2) % 2 == 0
      if patron_paridad.isEmpty then none
      else
        let patron_centro := patron_paridad.filter fun c =>
          decide (2 ≤ c.1 ∧ c.1 ≤ 7 ∧ 2 ≤ c.2 ∧ c.2 ≤ 7)
        if patron_centro.isEmpty = false ∧ 4 * patron_centro.length > patron_paridad.length then
          some (pick patron_centro)
        else
          some (pick patron_paridad)
    else none
  else none

/-- The early-game central-region stage (fewer than 20 previous shots). -/
def genCentroTemprano (pick : List (Nat × Nat) → Nat × Nat)
    (prev disponibles : List (Nat × Nat)) : Option (Nat × Nat) :=
  if prev.length < 20 then
    let centro := disponibles.filter fun c =>
      decide (2 ≤ c.1 ∧ c.1 ≤ 7 ∧ 2 ≤ c.2 ∧ c.2 ≤ 7)
    if centro.isEmpty then none else some (pick centro)
  else none

/-- `generar_coordenadas_aleatorias`: the deterministic fallback targeting
heuristic.  `pick` models `random.choice`; `rnd` models the pair of
`random.randint(0, 9)` draws used in the degenerate no-cells-left branch.
The source reads `juego_actual["tablero_ia"]["tablero_disparos"]` and
`juego_actual["tablero_jugador"]["barcos"]` from the global state; they are
the `tdIA` and `barcosJugador` arguments. -/
def generar_coordenadas_aleatorias (pick : List (Nat × Nat) → Nat × Nat) (rnd : Nat × Nat)
    (prev : List (Nat × Nat)) (tdIA : Grid) (barcosJugador : List Barco) : Nat × Nat :=
  let disponibles := todasCoordenadas.filter fun c => decide (c ∉ prev)
  if disponibles.isEmpty then rnd
  else
    match genAdyacentes pick prev tdIA with
    | some c => c
    | none =>
      match genParidad pick disponibles barcosJugador with
      | some c => c
      | none =>
        match genCentroTemprano pick prev disponibles with
        | some c => c
        | none => pick disponibles

/-- The heuristic exactly as `obtener_disparo_ia` invokes it on fallback:
`disparos_previos` is scanned off the same shot-record board the heuristic
then consults for `'X'` marks. -/
def fallback_disparo_ia (pick : List (Nat × Nat) → Nat × Nat) (rnd : Nat × Nat)
    (tdIA : Grid) (barcosJugador : List Barco) : Nat × Nat :=
  generar_coordenadas_aleatorias pick rnd (disparosPrevios tdIA) tdIA barcosJugador

/-! ### Well-formedness and basic facts about the Python list primitives -/

/-- A well-formed 10×10 board. -/
def WF10 (g : Grid) : Prop := g.length = 10 ∧ ∀ row ∈ g, row.length = 10

instance : DecidablePred WF10 := fun g => by unfold WF10; infer_instance

theorem wf10_crear_tablero : WF10 crear_tablero := by decide

theorem pyIdx_of_nonneg_lt {n : Nat} {i : Int} (h0 : 0 ≤ i) (h : i < (n : Int)) :
    pyIdx n i = some i.toNat := by
  simp [pyIdx, h0, h]

theorem pyGet_of_nonneg_lt {α : Type} {l : List α} {i : Int}
    (h0 : 0 ≤ i) (h : i < (l.length : Int)) : pyGet l i = l[i.toNat]? := by
  simp [pyGet, pyIdx_of_nonneg_lt h0 h]

theorem pySet_of_nonneg_lt {α : Type} {l : List α} {i : Int} (a : α)
    (h0 : 0 ≤ i) (h : i < (l.length : Int)) : pySet l i a = some (l.set i.toNat a) := by
  simp [pySet, pyIdx_of_nonneg_lt h0 h]

theorem row_of_wf10 {g : Grid} (hwf : WF10 g) {i : Nat} (hi : i < 10) :
    ∃ row, g[i]? = some row ∧ row.length = 10 := by
  obtain ⟨hlen, hrows⟩ := hwf
  have hi' : i < g.length := by omega
  exact ⟨g[i], List.getElem?_eq_getElem hi', hrows _ (List.getElem_mem hi')⟩

/-- An in-bounds `tablero[x][y]` read is the (total) `cellN` value. -/
theorem gridGet_eq_cellN {g : Grid} (hwf : WF10 g) {x y : Int}
    (hx0 : 0 ≤ x) (hx : x < 10) (hy0 : 0 ≤ y) (hy : y < 10) :
    gridGet g x y = some (cellN g x.toNat y.toNat) := by
  have hlen : g.length = 10 := hwf.1
  obtain ⟨row, hrow, hrlen⟩ := row_of_wf10 hwf (show x.toNat < 10 by omega)
  have hgx : pyGet g x = some row := by
    rw [pyGet_of_nonneg_lt hx0 (by omega : x < (g.length : Int))]; exact hrow
  have hylt : y.toNat < row.length := by omega
  obtain ⟨c, hc⟩ : ∃ c, row[y.toNat]? = some c := ⟨_, List.getElem?_eq_getElem hylt⟩
  have hgy : pyGet row y = some c := by
    rw [pyGet_of_nonneg_lt hy0 (by omega : y < (row.length : Int))]; exact hc
  simp [gridGet, hgx, hgy, cellN, hrow, hc]

/-- An in-bounds `tablero[x][y] = c` write on a well-formed board succeeds,
keeps the board well-formed, and changes exactly the one cell. -/
theorem gridSet_wf {g : Grid} (hwf : WF10 g) {x y : Int}
    (hx0 : 0 ≤ x) (hx : x < 10) (hy0 : 0 ≤ y) (hy : y < 10) (c : Char) :
    ∃ g', gridSet g x y c = some g' ∧ WF10 g' ∧
      ∀ i j : Nat, cellN g' i j =
        if i = x.toNat ∧ j = y.toNat then c else cellN g i j := by
  obtain ⟨row, hrow, hrlen⟩ := row_of_wf10 hwf (show x.toNat < 10 by omega)
  obtain ⟨hlen, hrows⟩ := hwf
  have hgx : pyGet g x = some row := by
    rw [pyGet_of_nonneg_lt hx0 (by omega : x < (g.length : Int))]; exact hrow
  have hsetrow : pySet row y c = some (row.set y.toNat c) :=
    pySet_of_nonneg_lt c hy0 (by omega)
  have hsetg : pySet g x (row.set y.toNat c) = some (g.set x.toNat (row.set y.toNat c)) :=
    pySet_of_nonneg_lt _ hx0 (by omega)
  refine ⟨g.set x.toNat (row.set y.toNat c), ?_, ?_, ?_⟩
  · simp [gridSet, hgx, hsetrow, hsetg]
  · refine ⟨by simp [hlen], fun r hr => ?_⟩
    rcases List.mem_or_eq_of_mem_set hr with h | h
    · exact hrows r h
    · subst h; simp [hrlen]
  · intro i j
    by_cases hi : i = x.toNat
    · subst hi
      have hget : (g.set x.toNat (row.set y.toNat c))[x.toNat]? = some (row.set y.toNat c) :=
        List.getElem?_set_eq_of_lt _ (by omega)
      by_cases hj : j = y.toNat
      · subst hj
        have hrget : (row.set y.toNat c)[y.toNat]? = some c :=
          List.getElem?_set_eq_of_lt _ (by omega)
        simp [cellN, hget, hrget]
      · have hrget : (row.set y.toNat c)[j]? = row[j]? :=
          List.getElem?_set_ne (fun h => hj h.symm)
        simp [cellN, hget, hrget, hrow, hj]
    · have hget : (g.set x.toNat (row.set y.toNat c))[i]? = g[i]? :=
        List.getElem?_set_ne (fun h => hi h.symm)
      simp [cellN, hget, hi]

/-! ### Concrete scenario states used to evaluate the code at failing inputs -/

/-- Total in-bounds write used to build concrete example boards. -/
def gSetN (g : Grid) (i j : Nat) (c : Char) : Grid := (gridSet g i j c).getD g

/-- Mid-game state: the computer's `Destructor` sits at `(0,0),(0,1)`, the
cell `(0,0)` has already been hit (so it reads `'X'` on the computer board
and on the player's shot-record board), and it is the player's turn. -/
def estadoC1 : GameState :=
  { tablero_jugador :=
      { tablero := crear_tablero,
        tablero_disparos := gSetN crear_tablero 0 0 'X',
        barcos := [] },
    tablero_ia :=
      { tablero := gSetN (gSetN crear_tablero 0 0 'X') 0 1 'O',
        tablero_disparos := crear_tablero,
        barcos := [⟨"Destructor", [(0, 0), (0, 1)], 1, false⟩] },
    turno_jugador := true, mensaje := "", fase := "juego",
    game_over := false, ganador := none }

/-- C1: the claim says a second shot at an already-shot cell reports the
repeat rejection and leaves the entire game state unchanged.  The rejection
and `hitOccurred = false` do happen, but the state is NOT left unchanged:
`registrar_disparo` is still invoked with the repeat message, which contains
neither "TOCADO" nor "HUNDIDO", so its else-branch overwrites the shooter's
shot-record cell — here turning the prior `'X'` (hit) mark at `(0,0)` into
`'F'` (miss) — and the turn passes to the other side because
`acierto = False`.  This theorem evaluates the code at that failing input. -/
theorem c1_repeat_shot_mutates_state :
    (disparar estadoC1 0 0).2 = Outcome.ok ∧
    (disparar estadoC1 0 0).1.mensaje = "Tu disparo: Ya has disparado aquí" ∧
    gridGet estadoC1.tablero_jugador.tablero_disparos 0 0 = some 'X' ∧
    gridGet (disparar estadoC1 0 0).1.tablero_jugador.tablero_disparos 0 0 = some 'F' ∧
    estadoC1.turno_jugador = true ∧
    (disparar estadoC1 0 0).1.turno_jugador = false ∧
    estadoC1.fase = "juego" ∧ estadoC1.game_over = false := by decide

/-- Mid-game state, computer to move: the player's `Destructor` at
`(0,0),(0,1)` already has one hit; the computer's own `Destructor` (same
catalog name) is NOT sunk. -/
def estadoC2 : GameState :=
  { tablero_jugador :=
      { tablero := gSetN (gSetN crear_tablero 0 0 'X') 0 1 'O',
        tablero_disparos := crear_tablero,
        barcos := [⟨"Destructor", [(0, 0), (0, 1)], 1, false⟩,
                   ⟨"Crucero", [(5, 5), (5, 6), (5, 7)], 0, false⟩] },
    tablero_ia :=
      { tablero := crear_tablero,
        tablero_disparos := gSetN crear_tablero 0 0 'X',
        barcos := [⟨"Destructor", [(9, 0), (9, 1)], 0, false⟩] },
    turno_jugador := false, mensaje := "", fase := "juego",
    game_over := false, ganador := none }

/-- C2: when the computer's shot at `(0,1)` sinks the player's `Destructor`,
the ship's `hundido` flag is set and the sink result is returned, but the
claim's "every cell of the ship reads SUNK on the shooter's target grid"
fails: `registrar_disparo` selects the fleet to mark by testing whether
`"IA dispara"` occurs in the raw result message (it never does), so it scans
the computer's own fleet, finds its same-named `Destructor` un-sunk, and
marks nothing — the previously hit cell `(0,0)` keeps its `'X'` mark and
only the final cell `(0,1)` reads `'H'`.  No SUNK mark is mirrored onto the
human owner board either: its cells keep `'X'`. -/
theorem c2_ia_sink_leaves_hit_marks :
    (turno_ia estadoC2 0 1).2 = Outcome.ok ∧
    (turno_ia estadoC2 0 1).1.tablero_jugador.barcos =
      [⟨"Destructor", [(0, 0), (0, 1)], 2, true⟩,
       ⟨"Crucero", [(5, 5), (5, 6), (5, 7)], 0, false⟩] ∧
    (turno_ia estadoC2 0 1).1.mensaje =
      "La IA dispara a (0, 1): ¡HUNDIDO! Has hundido el Destructor" ∧
    gridGet (turno_ia estadoC2 0 1).1.tablero_ia.tablero_disparos 0 0 = some 'X' ∧
    gridGet (turno_ia estadoC2 0 1).1.tablero_ia.tablero_disparos 0 1 = some 'H' ∧
    gridGet (turno_ia estadoC2 0 1).1.tablero_jugador.tablero 0 0 = some 'X' ∧
    gridGet (turno_ia estadoC2 0 1).1.tablero_jugador.tablero 0 1 = some 'X' := by decide

/-- A finished game (the player has already won). -/
def estadoC3 : GameState :=
  { tablero_jugador :=
      { tablero := crear_tablero, tablero_disparos := crear_tablero, barcos := [] },
    tablero_ia :=
      { tablero := gSetN crear_tablero 4 4 'X',
        tablero_disparos := crear_tablero,
        barcos := [⟨"Destructor", [(4, 4), (4, 5)], 2, true⟩] },
    turno_jugador := true, mensaje := "¡FELICIDADES! Has ganado la partida",
    fase := "juego", game_over := true, ganador := some "jugador" }

/-- C3 (amended): once `game_over` is set, `/disparar` and `/turno-ia`
return the state unchanged with a normal (non-error) response before any
shot is resolved; the winner, message, grids and fleets are untouched. -/
theorem c3_finished_game_requests_are_noops (s : GameState) (x y cx cy : Int)
    (hfase : s.fase ≠ "colocacion") (hgo : s.game_over = true) :
    disparar s x y = (s, Outcome.ok) ∧ turno_ia s cx cy = (s, Outcome.ok) := by
  constructor
  · unfold disparar
    rw [if_neg hfase, if_pos (by simp [hgo])]
  · unfold turno_ia
    rw [if_neg hfase, if_pos (by simp [hgo])]

/-- C3 witness: the amended statement evaluated on a concrete finished
state. -/
theorem c3_finished_game_requests_are_noops_witness :
    disparar estadoC3 1 1 = (estadoC3, Outcome.ok) ∧
    turno_ia estadoC3 2 2 = (estadoC3, Outcome.ok) :=
  c3_finished_game_requests_are_noops estadoC3 1 1 2 2 (by decide) (by decide)

/-- C3 counterexample to the claim as stated: on a concrete finished state a
further shot request (and a computer-turn request) is answered with a
normal `ok` response — it is not rejected with a `PreconditionViolation`
(`HTTPException`) naming the unmet condition. -/
theorem c3_counterexample_no_precondition_violation :
    estadoC3.game_over = true ∧ estadoC3.fase = "juego" ∧
    (disparar estadoC3 0 0).2 = Outcome.ok ∧
    (disparar estadoC3 0 0).1 = estadoC3 ∧
    (turno_ia estadoC3 0 0).2 = Outcome.ok ∧
    (turno_ia estadoC3 0 0).1 = estadoC3 := by decide

/-- Mid-game state used for the out-of-bounds shot: nothing shot yet,
player to move. -/
def estadoC4 : GameState :=
  { tablero_jugador :=
      { tablero := crear_tablero, tablero_disparos := crear_tablero, barcos := [] },
    tablero_ia :=
      { tablero := gSetN crear_tablero 7 7 'O',
        tablero_disparos := crear_tablero,
        barcos := [⟨"Destructor", [(7, 7), (7, 8)], 0, false⟩] },
    turno_jugador := true, mensaje := "", fase := "juego",
    game_over := false, ganador := none }

/-- C4: a shot at `(-1, 0)` is reported out of bounds by `procesar_disparo`,
but `registrar_disparo` is still called and its else-branch executes
`tablero_disparos[-1][0] = 'F'`, which under Python's negative indexing
writes a MISS mark into row 9 of the player's shot-record board; the turn
also passes.  (A shot at `(10, 0)` instead raises `IndexError` out of the
handler.)  This refutes the claim that no grid cell is modified. -/
theorem c4_negative_out_of_bounds_writes :
    (disparar estadoC4 (-1) 0).2 = Outcome.ok ∧
    (disparar estadoC4 (-1) 0).1.mensaje = "Tu disparo: Coordenadas fuera del tablero" ∧
    gridGet estadoC4.tablero_jugador.tablero_disparos 9 0 = some '~' ∧
    gridGet (disparar estadoC4 (-1) 0).1.tablero_jugador.tablero_disparos 9 0 = some 'F' ∧
    (disparar estadoC4 (-1) 0).1.turno_jugador = false ∧
    (disparar estadoC4 10 0).2 = Outcome.crash := by decide

/-- C9: every rejected fleet placement leaves the game state exactly as it
was — validation runs only against the scratch board, and the real grid,
fleet and phase are written only after the whole submission has passed. -/
theorem c9_rejected_placement_is_atomic (s : GameState) (fl : List ColocacionBarco)
    (e : String) :
    (colocar_barcos s fl).2 = Outcome.httpErr e → (colocar_barcos s fl).1 = s := by
  unfold colocar_barcos
  split
  · intro _; rfl
  · split
    · dsimp only
      split
      · intro _; rfl
      · intro _; rfl
    · dsimp only
      split
      · intro _; rfl
      · intro h; exact absurd h (by simp)

/-! ### Unfolding equations for the shot handlers -/

/-- `disparar` on the main path (playing phase, game not over, player's
turn), expressed in terms of an already-destructured `procesar_disparo`
result. -/
theorem disparar_main (s : GameState) (x y : Int)
    (hfase : ¬ s.fase = "colocacion") (hgo : s.game_over = false)
    (hturno : s.turno_jugador = true) :
    disparar s x y =
      (let tIA := (procesar_disparo s.tablero_ia.tablero s.tablero_ia.barcos x y).1
       let bIA := (procesar_disparo s.tablero_ia.tablero s.tablero_ia.barcos x y).2.1
       let r := (procesar_disparo s.tablero_ia.tablero s.tablero_ia.barcos x y).2.2
       let s1 := { s with tablero_ia := { s.tablero_ia with tablero := tIA, barcos := bIA } }
       match r with
       | none => (s1, Outcome.crash)
       | some (resultado, acierto, barco_hundido) =>
         match registrar_disparo s1 s1.tablero_jugador.tablero_disparos x y resultado barco_hundido with
         | none => (s1, Outcome.crash)
         | some td =>
           let s2 := { s1 with
             tablero_jugador := { s1.tablero_jugador with tablero_disparos := td },
             mensaje := "Tu disparo: " ++ resultado }
           if todos_barcos_hundidos s2.tablero_ia.barcos then
             ({ s2 with mensaje := "¡FELICIDADES! Has ganado la partida",
                        game_over := true, ganador := some "jugador" }, Outcome.ok)
           else if acierto = false then ({ s2 with turno_jugador := false }, Outcome.ok)
           else (s2, Outcome.ok)) := by
  unfold disparar
  rw [if_neg hfase, if_neg (by simp [hgo]), if_neg (by simp [hturno])]

/-- `turno_ia` on the main path (playing phase, game not over, computer's
turn), expressed in terms of an already-destructured `procesar_disparo`
result. -/
theorem turno_ia_main (s : GameState) (x y : Int)
    (hfase : ¬ s.fase = "colocacion") (hgo : s.game_over = false)
    (hturno : s.turno_jugador = false) :
    turno_ia s x y =
      (let tJ := (procesar_disparo s.tablero_jugador.tablero s.tablero_jugador.barcos x y).1
       let bJ := (procesar_disparo s.tablero_jugador.tablero s.tablero_jugador.barcos x y).2.1
       let r := (procesar_disparo s.tablero_jugador.tablero s.tablero_jugador.barcos x y).2.2
       let s1 := { s with tablero_jugador := { s.tablero_jugador with tablero := tJ, barcos := bJ } }
       match r with
       | none => (s1, Outcome.crash)
       | some (resultado, acierto, barco_hundido) =>
         match registrar_disparo s1 s1.tablero_ia.tablero_disparos x y resultado barco_hundido with
         | none => (s1, Outcome.crash)
         | some td =>
           let s2 := { s1 with
             tablero_ia := { s1.tablero_ia with tablero_disparos := td },
             mensaje := s!"La IA dispara a ({x}, {y}): {resultado}" }
           if todos_barcos_hundidos s2.tablero_jugador.barcos then
             ({ s2 with mensaje := "¡Has perdido! La IA ha hundido todos tus barcos.",
                        game_over := true, ganador := some "ia" }, Outcome.ok)
           else if acierto = false then ({ s2 with turno_jugador := true }, Outcome.ok)
           else (s2, Outcome.ok)) := by
  unfold turno_ia
  rw [if_neg hfase, if_neg (by simp [hgo]), if_neg (by simp [hturno])]

/-- C6: after every shot that produces a normal response from a
not-yet-finished game, if the defending fleet is fully sunk afterwards then
the game is over with the shooter as winner — for the player's shots
(`/disparar`, winner `"jugador"`) and the computer's (`/turno-ia`, winner
`"ia"`) alike.  The conclusion is conditioned only on the post-shot fleet,
so it covers every shot, including the final sink and rejected repeats. -/
theorem c6_defeat_check_runs_after_every_shot (s : GameState) (x y cx cy : Int)
    (hgo : s.game_over = false) :
    ((disparar s x y).2 = Outcome.ok →
      todos_barcos_hundidos (disparar s x y).1.tablero_ia.barcos = true →
      (disparar s x y).1.game_over = true ∧
        (disparar s x y).1.ganador = some "jugador") ∧
    ((turno_ia s cx cy).2 = Outcome.ok →
      todos_barcos_hundidos (turno_ia s cx cy).1.tablero_jugador.barcos = true →
      (turno_ia s cx cy).1.game_over = true ∧
        (turno_ia s cx cy).1.ganador = some "ia") := by
  constructor
  · by_cases hfase : s.fase = "colocacion"
    · have hd : disparar s x y = (s, Outcome.httpErr "Primero debes colocar tus barcos.") := by
        unfold disparar; rw [if_pos hfase]
      rw [hd]; intro h; simp at h
    · by_cases hturno : s.turno_jugador = true
      · rw [disparar_main s x y hfase hgo hturno]
        dsimp only
        rcases hr : (procesar_disparo s.tablero_ia.tablero s.tablero_ia.barcos x y).2.2 with
          _ | ⟨res, ac, bh⟩
        · intro h; simp at h
        · dsimp only
          split
          · intro h; simp at h
          · split
            · intro _ _; exact ⟨rfl, rfl⟩
            · next hnot =>
              split
              · intro _ htodos
                exact absurd (by simpa using htodos) hnot
              · intro _ htodos
                exact absurd (by simpa using htodos) hnot
      · have hd : disparar s x y = (s, Outcome.httpErr "No es tu turno.") := by
          unfold disparar
          rw [if_neg hfase, if_neg (by simp [hgo]),
            if_pos (by simpa using hturno)]
        rw [hd]; intro h; simp at h
  · by_cases hfase : s.fase = "colocacion"
    · have hd : turno_ia s cx cy = (s, Outcome.httpErr "El jugador aún debe colocar sus barcos.") := by
        unfold turno_ia; rw [if_pos hfase]
      rw [hd]; intro h; simp at h
    · by_cases hturno : s.turno_jugador = false
      · rw [turno_ia_main s cx cy hfase hgo hturno]
        dsimp only
        rcases hr : (procesar_disparo s.tablero_jugador.tablero s.tablero_jugador.barcos cx cy).2.2 with
          _ | ⟨res, ac, bh⟩
        · intro h; simp at h
        · dsimp only
          split
          · intro h; simp at h
          · split
            · intro _ _; exact ⟨rfl, rfl⟩
            · next hnot =>
              split
              · intro _ htodos
                exact absurd (by simpa using htodos) hnot
              · intro _ htodos
                exact absurd (by simpa using htodos) hnot
      · have hd : turno_ia s cx cy = (s, Outcome.httpErr "Es el turno del jugador.") := by
          unfold turno_ia
          rw [if_neg hfase, if_neg (by simp [hgo]),
            if_pos (by simpa using hturno)]
        rw [hd]; intro h; simp at h

/-- Near-endgame state: one hit on the computer's last un-sunk ship. -/
def estadoC6 : GameState :=
  { tablero_jugador :=
      { tablero := crear_tablero, tablero_disparos := gSetN crear_tablero 0 0 'X', barcos := [] },
    tablero_ia :=
      { tablero := gSetN (gSetN crear_tablero 0 0 'X') 0 1 'O',
        tablero_disparos := crear_tablero,
        barcos := [⟨"Destructor", [(0, 0), (0, 1)], 1, false⟩] },
    turno_jugador := true, mensaje := "", fase := "juego",
    game_over := false, ganador := none }

/-- C6 witness: the defeat check evaluated on a concrete final sink by the
player. -/
theorem c6_defeat_check_runs_after_every_shot_witness :
    (disparar estadoC6 0 1).1.game_over = true ∧
    (disparar estadoC6 0 1).1.ganador = some "jugador" :=
  (c6_defeat_check_runs_after_every_shot estadoC6 0 1 0 0 rfl).1 (by decide) (by decide)

/-- C7: the turn-retention rule.  A resolved hit (including a sink, i.e.
`acierto = true` from the resolver) leaves the turn indicator exactly as it
was, for the player's shot and the computer's alike; a resolved miss (an
in-bounds shot at a cell that is neither `'O'` nor already shot) passes the
turn to the other side. -/
theorem c7_hit_keeps_miss_passes_turn (s : GameState) (x y cx cy : Int) :
    (∀ res bh,
      (procesar_disparo s.tablero_ia.tablero s.tablero_ia.barcos x y).2.2 = some (res, true, bh) →
      (disparar s x y).1.turno_jugador = s.turno_jugador) ∧
    (s.fase ≠ "colocacion" → s.game_over = false → s.turno_jugador = true →
      todos_barcos_hundidos s.tablero_ia.barcos = false →
      WF10 s.tablero_ia.tablero → WF10 s.tablero_jugador.tablero_disparos →
      0 ≤ x → x < 10 → 0 ≤ y → y < 10 →
      cellN s.tablero_ia.tablero x.toNat y.toNat ∉ (['O', 'X', 'F'] : List Char) →
      (disparar s x y).1.turno_jugador = false) ∧
    (∀ res bh,
      (procesar_disparo s.tablero_jugador.tablero s.tablero_jugador.barcos cx cy).2.2 =
        some (res, true, bh) →
      (turno_ia s cx cy).1.turno_jugador = s.turno_jugador) ∧
    (s.fase ≠ "colocacion" → s.game_over = false → s.turno_jugador = false →
      todos_barcos_hundidos s.tablero_jugador.barcos = false →
      WF10 s.tablero_jugador.tablero → WF10 s.tablero_ia.tablero_disparos →
      0 ≤ cx → cx < 10 → 0 ≤ cy → cy < 10 →
      cellN s.tablero_jugador.tablero cx.toNat cy.toNat ∉ (['O', 'X', 'F'] : List Char) →
      (turno_ia s cx cy).1.turno_jugador = true) := by
  refine ⟨?_, ?_, ?_, ?_⟩
  · intro res bh hp
    by_cases hfase : s.fase = "colocacion"
    · unfold disparar; rw [if_pos hfase]
    · by_cases hgo : s.game_over = true
      · unfold disparar; rw [if_neg hfase, if_pos (by simp [hgo])]
      · have hgo' : s.game_over = false := by simpa using hgo
        by_cases hturno : s.turno_jugador = true
        · rw [disparar_main s x y hfase hgo' hturno]
          dsimp only
          rw [hp]
          dsimp only
          split
          · rfl
          · split
            · rfl
            · simp
        · unfold disparar
          rw [if_neg hfase, if_neg (by simp [hgo']), if_pos (by simpa using hturno)]
  · intro hfase hgo hturno htodos hwfIA hwfTD hx0 hx hy0 hy hcell
    have hread : gridGet s.tablero_ia.tablero x y =
        some (cellN s.tablero_ia.tablero x.toNat y.toNat) :=
      gridGet_eq_cellN hwfIA hx0 hx hy0 hy
    have hO : ¬ gridGet s.tablero_ia.tablero x y = some 'O' := by
      rw [hread]; intro hcon
      exact hcell (by simp_all)
    have hXF : ¬ (gridGet s.tablero_ia.tablero x y = some 'X' ∨
        gridGet s.tablero_ia.tablero x y = some 'F') := by
      rw [hread]; rintro (hcon | hcon) <;> exact hcell (by simp_all)
    have hp : procesar_disparo s.tablero_ia.tablero s.tablero_ia.barcos x y =
        ((gridSet s.tablero_ia.tablero x y 'F').getD s.tablero_ia.tablero,
          s.tablero_ia.barcos, some ("AGUA. Has fallado", false, none)) := by
      unfold procesar_disparo
      rw [if_neg (not_not_intro ⟨hx0, hx, hy0, hy⟩), if_neg hO, if_neg hXF]
    rw [disparar_main s x y hfase hgo hturno]
    dsimp only
    rw [hp]
    dsimp only
    unfold registrar_disparo
    rw [if_neg (by decide)]
    obtain ⟨td, hset, -, -⟩ := gridSet_wf hwfTD hx0 hx hy0 hy 'F'
    rw [hset]
    dsimp only
    rw [if_neg (by simpa using htodos), if_pos rfl]
  · intro res bh hp
    by_cases hfase : s.fase = "colocacion"
    · unfold turno_ia; rw [if_pos hfase]
    · by_cases hgo : s.game_over = true
      · unfold turno_ia; rw [if_neg hfase, if_pos (by simp [hgo])]
      · have hgo' : s.game_over = false := by simpa using hgo
        by_cases hturno : s.turno_jugador = false
        · rw [turno_ia_main s cx cy hfase hgo' hturno]
          dsimp only
          rw [hp]
          dsimp only
          split
          · rfl
          · split
            · rfl
            · simp
        · unfold turno_ia
          rw [if_neg hfase, if_neg (by simp [hgo']), if_pos (by simpa using hturno)]
  · intro hfase hgo hturno htodos hwfJ hwfTD hx0 hx hy0 hy hcell
    have hread : gridGet s.tablero_jugador.tablero cx cy =
        some (cellN s.tablero_jugador.tablero cx.toNat cy.toNat) :=
      gridGet_eq_cellN hwfJ hx0 hx hy0 hy
    have hO : ¬ gridGet s.tablero_jugador.tablero cx cy = some 'O' := by
      rw [hread]; intro hcon
      exact hcell (by simp_all)
    have hXF : ¬ (gridGet s.tablero_jugador.tablero cx cy = some 'X' ∨
        gridGet s.tablero_jugador.tablero cx cy = some 'F') := by
      rw [hread]; rintro (hcon | hcon) <;> exact hcell (by simp_all)
    have hp : procesar_disparo s.tablero_jugador.tablero s.tablero_jugador.barcos cx cy =
        ((gridSet s.tablero_jugador.tablero cx cy 'F').getD s.tablero_jugador.tablero,
          s.tablero_jugador.barcos, some ("AGUA. Has fallado", false, none)) := by
      unfold procesar_disparo
      rw [if_neg (not_not_intro ⟨hx0, hx, hy0, hy⟩), if_neg hO, if_neg hXF]
    rw [turno_ia_main s cx cy hfase hgo hturno]
    dsimp only
    rw [hp]
    dsimp only
    unfold registrar_disparo
    rw [if_neg (by decide)]
    obtain ⟨td, hset, -, -⟩ := gridSet_wf hwfTD hx0 hx hy0 hy 'F'
    rw [hset]
    dsimp only
    rw [if_neg (by simpa using htodos), if_pos rfl]

/-- Mid-game state, player to move, used to evaluate the turn rule. -/
def estadoC7 : GameState :=
  { tablero_jugador :=
      { tablero := crear_tablero, tablero_disparos := crear_tablero, barcos := [] },
    tablero_ia :=
      { tablero := gSetN (gSetN (gSetN crear_tablero 0 0 'O') 0 1 'O') 0 2 'O',
        tablero_disparos := crear_tablero,
        barcos := [⟨"Crucero", [(0, 0), (0, 1), (0, 2)], 0, false⟩] },
    turno_jugador := true, mensaje := "", fase := "juego",
    game_over := false, ganador := none }

/-- Mid-game state, computer to move, used to evaluate the turn rule. -/
def estadoC7ia : GameState :=
  { tablero_jugador :=
      { tablero := gSetN (gSetN (gSetN crear_tablero 0 0 'O') 0 1 'O') 0 2 'O',
        tablero_disparos := crear_tablero,
        barcos := [⟨"Crucero", [(0, 0), (0, 1), (0, 2)], 0, false⟩] },
    tablero_ia :=
      { tablero := crear_tablero, tablero_disparos := crear_tablero,
        barcos := [] },
    turno_jugador := false, mensaje := "", fase := "juego",
    game_over := false, ganador := none }

/-- C7 witness: the turn rule evaluated on concrete hits and misses of both
sides. -/
theorem c7_hit_keeps_miss_passes_turn_witness :
    (disparar estadoC7 0 1).1.turno_jugador = estadoC7.turno_jugador ∧
    (disparar estadoC7 5 5).1.turno_jugador = false ∧
    (turno_ia estadoC7ia 0 1).1.turno_jugador = estadoC7ia.turno_jugador ∧
    (turno_ia estadoC7ia 5 5).1.turno_jugador = true :=
  ⟨(c7_hit_keeps_miss_passes_turn estadoC7 0 1 0 0).1
      "¡TOCADO! Has acertado en un barco" none (by decide),
   (c7_hit_keeps_miss_passes_turn estadoC7 5 5 0 0).2.1
      (by decide) (by decide) (by decide) (by decide) (by decide) (by decide)
      (by decide) (by decide) (by decide) (by decide) (by decide),
   (c7_hit_keeps_miss_passes_turn estadoC7ia 0 0 0 1).2.2.1
      "¡TOCADO! Has acertado en un barco" none (by decide),
   (c7_hit_keeps_miss_passes_turn estadoC7ia 0 0 5 5).2.2.2
      (by decide) (by decide) (by decide) (by decide) (by decide) (by decide)
      (by decide) (by decide) (by decide) (by decide) (by decide)⟩

/-- C9 witness: a concrete rejected submission (a single ship instead of
the whole catalog) leaves a concrete placement-phase state unchanged. -/
theorem c9_rejected_placement_is_atomic_witness :
    (colocar_barcos (initState crear_tablero [])
      [⟨"Destructor", [(0, 0), (0, 1)]⟩]).1 = initState crear_tablero [] :=
  c9_rejected_placement_is_atomic (initState crear_tablero [])
    [⟨"Destructor", [(0, 0), (0, 1)]⟩]
    "Debes colocar todos los barcos requeridos." (by decide)

/-! ### The targeting heuristic's postconditions (C5) -/

/-- A cell already shot at: marked `'X'`, `'F'` or `'H'`. -/
def marcada (g : Grid) (c : Nat × Nat) : Prop :=
  cellN g c.1 c.2 = 'X' ∨ cellN g c.1 c.2 = 'F' ∨ cellN g c.1 c.2 = 'H'

instance (g : Grid) (c : Nat × Nat) : Decidable (marcada g c) := by
  unfold marcada; infer_instance

/-- `n` is an orthogonal (up/down/left/right) neighbour of `c`. -/
def vecinoOrt (c n : Nat × Nat) : Prop :=
  ∃ d ∈ dirsOrt, (n.1 : Int) = (c.1 : Int) + d.1 ∧ (n.2 : Int) = (c.2 : Int) + d.2

instance (c n : Nat × Nat) : Decidable (vecinoOrt c n) := by
  unfold vecinoOrt; infer_instance

theorem mem_todasCoordenadas {c : Nat × Nat} :
    c ∈ todasCoordenadas ↔ c.1 < 10 ∧ c.2 < 10 := by
  cases c with
  | mk a b => simp [todasCoordenadas]

theorem mem_disparosPrevios {g : Grid} {c : Nat × Nat} :
    c ∈ disparosPrevios g ↔ (c.1 < 10 ∧ c.2 < 10) ∧ marcada g c := by
  rw [disparosPrevios, List.mem_filter, mem_todasCoordenadas]
  simp only [marcada, Bool.or_eq_true, beq_iff_eq]
  tauto

/-- Every coordinate an accepted adjacency-stage result can be: in bounds,
unshot, and orthogonally adjacent to some `'X'` cell. -/
theorem genAdyacentes_mem {pick : List (Nat × Nat) → Nat × Nat}
    {prev : List (Nat × Nat)} {tdIA : Grid} {c : Nat × Nat}
    (hpick : ∀ l : List (Nat × Nat), l ≠ [] → pick l ∈ l)
    (h : genAdyacentes pick prev tdIA = some c) :
    c.1 < 10 ∧ c.2 < 10 ∧ c ∉ prev ∧
      ∃ i j : Nat, i < 10 ∧ j < 10 ∧ cellN tdIA i j = 'X' ∧ vecinoOrt (i, j) c := by
  unfold genAdyacentes at h
  dsimp only at h
  split at h
  · exact absurd h (by simp)
  · split at h
    · exact absurd h (by simp)
    · split at h
      · exact absurd h (by simp)
      · next hne =>
        rw [Option.some_inj] at h
        have hmem := hpick _ (by simpa only [List.isEmpty_iff] using hne)
        rw [h] at hmem
        rw [List.mem_flatMap] at hmem
        obtain ⟨imp, himp, hcand⟩ := hmem
        rw [List.mem_filterMap] at hcand
        obtain ⟨d, hd, hcond⟩ := hcand
        split at hcond
        · next hcnd =>
          obtain ⟨h1, h2, h3, h4, h5⟩ := hcnd
          rw [Option.some_inj, Prod.mk.injEq] at hcond
          obtain ⟨hc1, hc2⟩ := hcond
          rw [List.mem_filter] at himp
          obtain ⟨himp1, himp2⟩ := himp
          rw [mem_todasCoordenadas] at himp1
          refine ⟨by omega, by omega, ?_, imp.1, imp.2, himp1.1, himp1.2,
            by simpa using himp2, ?_⟩
          · have h5' := h5
            rw [hc1, hc2] at h5'
            simpa using h5'
          · exact ⟨d, hd, by omega, by omega⟩
        · exact absurd hcond (by simp)

/-- When some `'X'` cell has an in-bounds unshot orthogonal neighbour, the
adjacency stage does produce a coordinate. -/
theorem genAdyacentes_isSome {pick : List (Nat × Nat) → Nat × Nat}
    {prev : List (Nat × Nat)} {tdIA : Grid}
    (hgrid : tdIA ≠ [])
    (hhit : ∃ i j : Nat, i < 10 ∧ j < 10 ∧ cellN tdIA i j = 'X' ∧
      ∃ n : Nat × Nat, vecinoOrt (i, j) n ∧ n.1 < 10 ∧ n.2 < 10 ∧ n ∉ prev) :
    genAdyacentes pick prev tdIA ≠ none := by
  obtain ⟨i, j, hi, hj, hx, n, ⟨d, hd, hn1, hn2⟩, hnb1, hnb2, hnp⟩ := hhit
  simp only at hn1 hn2
  unfold genAdyacentes
  rw [if_neg (by simpa only [List.isEmpty_iff] using hgrid)]
  have himp : (i, j) ∈ todasCoordenadas.filter fun c => cellN tdIA c.1 c.2 == 'X' := by
    rw [List.mem_filter, mem_todasCoordenadas]
    exact ⟨⟨hi, hj⟩, by simpa using hx⟩
  dsimp only
  rw [if_neg (by
    rw [List.isEmpty_iff]
    exact List.ne_nil_of_mem himp)]
  have hcand : n ∈ (todasCoordenadas.filter fun c => cellN tdIA c.1 c.2 == 'X').flatMap
      fun c => dirsOrt.filterMap fun d =>
        let nx : Int := (c.1 : Int) + d.1
        let ny : Int := (c.2 : Int) + d.2
        if 0 ≤ nx ∧ nx < 10 ∧ 0 ≤ ny ∧ ny < 10 ∧ (nx.toNat, ny.toNat) ∉ prev then
          some (nx.toNat, ny.toNat)
        else none := by
    rw [List.mem_flatMap]
    refine ⟨(i, j), himp, ?_⟩
    rw [List.mem_filterMap]
    refine ⟨d, hd, ?_⟩
    dsimp only
    have hxn : ((i : Int) + d.1).toNat = n.1 := by omega
    have hyn : ((j : Int) + d.2).toNat = n.2 := by omega
    rw [if_pos ⟨by omega, by omega, by omega, by omega, by rw [hxn, hyn]; simpa using hnp⟩]
    rw [hxn, hyn]
  rw [if_neg (by
    rw [List.isEmpty_iff]
    exact List.ne_nil_of_mem hcand)]
  simp

theorem genParidad_mem {pick : List (Nat × Nat) → Nat × Nat}
    {disponibles : List (Nat × Nat)} {bs : List Barco} {c : Nat × Nat}
    (hpick : ∀ l : List (Nat × Nat), l ≠ [] → pick l ∈ l)
    (h : genParidad pick disponibles bs = some c) : c ∈ disponibles := by
  unfold genParidad at h
  dsimp only at h
  repeat' split at h
  all_goals
    first
      | exact Option.noConfusion h
      | (rw [Option.some_inj] at h
         subst h
         first
           | exact List.mem_of_mem_filter (List.mem_of_mem_filter (hpick _ (by
               simp_all only [List.isEmpty_iff, List.isEmpty_eq_false, ne_eq,
                 not_false_iff])))
           | exact List.mem_of_mem_filter (hpick _ (by
               simp_all only [List.isEmpty_iff, List.isEmpty_eq_false, ne_eq,
                 not_false_iff])))

theorem genCentroTemprano_mem {pick : List (Nat × Nat) → Nat × Nat}
    {prev disponibles : List (Nat × Nat)} {c : Nat × Nat}
    (hpick : ∀ l : List (Nat × Nat), l ≠ [] → pick l ∈ l)
    (h : genCentroTemprano pick prev disponibles = some c) : c ∈ disponibles := by
  unfold genCentroTemprano at h
  dsimp only at h
  split at h
  · split at h
    · exact absurd h (by simp)
    · next hcne =>
      rw [Option.some_inj] at h
      have hc : pick _ ∈ _ := hpick _ (by simpa only [List.isEmpty_iff] using hcne)
      rw [h] at hc
      exact List.mem_of_mem_filter hc
  · exact absurd h (by simp)

/-- C5 (amended): whenever at least one unshot cell remains, the fallback
heuristic returns an in-bounds coordinate that is not already marked
`HIT/MISS/SUNK`, on every path (adjacency, parity, central preference,
absolute fallback); and whenever some `'X'`-marked cell has an in-bounds
unshot orthogonal neighbour, the returned coordinate is an orthogonal
(never diagonal) neighbour of an `'X'`-marked cell.  `pick` is any function
behaving like `random.choice` (it returns a member of a non-empty list). -/
theorem c5_heuristic_postconditions (pick : List (Nat × Nat) → Nat × Nat)
    (rnd : Nat × Nat) (g : Grid) (bs : List Barco)
    (hpick : ∀ l : List (Nat × Nat), l ≠ [] → pick l ∈ l)
    (hwf : WF10 g)
    (hni : ∃ c : Nat × Nat, c.1 < 10 ∧ c.2 < 10 ∧ ¬ marcada g c) :
    ((fallback_disparo_ia pick rnd g bs).1 < 10 ∧
     (fallback_disparo_ia pick rnd g bs).2 < 10 ∧
     ¬ marcada g (fallback_disparo_ia pick rnd g bs)) ∧
    ((∃ i j : Nat, i < 10 ∧ j < 10 ∧ cellN g i j = 'X' ∧
        ∃ n : Nat × Nat, vecinoOrt (i, j) n ∧ n.1 < 10 ∧ n.2 < 10 ∧ ¬ marcada g n) →
      ∃ i j : Nat, i < 10 ∧ j < 10 ∧ cellN g i j = 'X' ∧
        vecinoOrt (i, j) (fallback_disparo_ia pick rnd g bs)) := by
  have hprev : ∀ c : Nat × Nat, c.1 < 10 → c.2 < 10 →
      (c ∉ disparosPrevios g ↔ ¬ marcada g c) := by
    intro c h1 h2
    rw [mem_disparosPrevios]
    tauto
  have hdisp : ∀ c : Nat × Nat,
      c ∈ todasCoordenadas.filter (fun c => decide (c ∉ disparosPrevios g)) →
      c.1 < 10 ∧ c.2 < 10 ∧ ¬ marcada g c := by
    intro c hc
    rw [List.mem_filter, mem_todasCoordenadas] at hc
    obtain ⟨⟨h1, h2⟩, h3⟩ := hc
    rw [decide_eq_true_eq] at h3
    exact ⟨h1, h2, (hprev c h1 h2).mp h3⟩
  obtain ⟨c0, hc01, hc02, hc0m⟩ := hni
  have hc0d : c0 ∈ todasCoordenadas.filter fun c => decide (c ∉ disparosPrevios g) := by
    rw [List.mem_filter, mem_todasCoordenadas]
    exact ⟨⟨hc01, hc02⟩, by
      rw [decide_eq_true_eq]
      exact (hprev c0 hc01 hc02).mpr hc0m⟩
  have hdne : (todasCoordenadas.filter fun c => decide (c ∉ disparosPrevios g)) ≠ [] :=
    List.ne_nil_of_mem hc0d
  unfold fallback_disparo_ia generar_coordenadas_aleatorias
  dsimp only
  rw [if_neg (by simpa only [List.isEmpty_iff] using hdne)]
  rcases hadj : genAdyacentes pick (disparosPrevios g) g with _ | a
  · rcases hpar : genParidad pick
        (todasCoordenadas.filter fun c => decide (c ∉ disparosPrevios g)) bs with _ | a
    · rcases hcen : genCentroTemprano pick (disparosPrevios g)
          (todasCoordenadas.filter fun c => decide (c ∉ disparosPrevios g)) with _ | a
      · constructor
        · exact hdisp _ (hpick _ hdne)
        · intro hhit
          exact absurd hadj (genAdyacentes_isSome
            (by intro hg; rw [hg] at hwf; exact absurd hwf.1 (by simp)) (by
              obtain ⟨i, j, hi, hj, hx, n, hv, hn1, hn2, hnm⟩ := hhit
              exact ⟨i, j, hi, hj, hx, n, hv, hn1, hn2, (hprev n hn1 hn2).mpr hnm⟩))
      · constructor
        · exact hdisp _ (genCentroTemprano_mem hpick hcen)
        · intro hhit
          exact absurd hadj (genAdyacentes_isSome
            (by intro hg; rw [hg] at hwf; exact absurd hwf.1 (by simp)) (by
              obtain ⟨i, j, hi, hj, hx, n, hv, hn1, hn2, hnm⟩ := hhit
              exact ⟨i, j, hi, hj, hx, n, hv, hn1, hn2, (hprev n hn1 hn2).mpr hnm⟩))
    · constructor
      · exact hdisp _ (genParidad_mem hpick hpar)
      · intro hhit
        exact absurd hadj (genAdyacentes_isSome
          (by intro hg; rw [hg] at hwf; exact absurd hwf.1 (by simp)) (by
            obtain ⟨i, j, hi, hj, hx, n, hv, hn1, hn2, hnm⟩ := hhit
            exact ⟨i, j, hi, hj, hx, n, hv, hn1, hn2, (hprev n hn1 hn2).mpr hnm⟩))
  · obtain ⟨ha1, ha2, hap, i, j, hi, hj, hx, hv⟩ := genAdyacentes_mem hpick hadj
    exact ⟨⟨ha1, ha2, (hprev a ha1 ha2).mp hap⟩,
      fun _ => ⟨i, j, hi, hj, hx, hv⟩⟩

/-- Shot-record board with a single `'X'` hit at the corner `(0,0)` whose
two in-board orthogonal neighbours `(0,1)` and `(1,0)` have both already
been shot (`'F'`). -/
def gridC5 : Grid := gSetN (gSetN (gSetN crear_tablero 0 0 'X') 0 1 'F') 1 0 'F'

/-- A fleet in which the ship hit at `(0,0)` is not sunk. -/
def barcosC5 : List Barco := [⟨"Destructor", [(0, 0), (0, 1)], 1, false⟩]

/-- A concrete admissible tie-breaker for `random.choice`: take the first
candidate. -/
def eligePrimero (l : List (Nat × Nat)) : Nat × Nat := l.headD (0, 0)

theorem eligePrimero_mem : ∀ l : List (Nat × Nat), l ≠ [] → eligePrimero l ∈ l := by
  intro l hl
  cases l with
  | nil => exact absurd rfl hl
  | cons a t => simp [eligePrimero]

/-- C5 counterexample to the claim as stated: on `gridC5` the cell `(0,0)`
is a HIT belonging to an un-sunk ship, yet every orthogonal neighbour of it
is out of the board or already shot, so the adjacency stage finds no
candidate and the heuristic falls through to the parity stage, returning
`(2,2)` (under the admissible first-candidate tie-breaker) — which is not
orthogonally adjacent to any HIT cell. -/
theorem c5_counterexample_hit_without_adjacent_shot :
    cellN gridC5 0 0 = 'X' ∧
    (∃ b ∈ barcosC5, ((0 : Int), (0 : Int)) ∈ b.posiciones ∧ b.hundido = false) ∧
    (todasCoordenadas.filter fun c => cellN gridC5 c.1 c.2 == 'X') = [(0, 0)] ∧
    fallback_disparo_ia eligePrimero (0, 0) gridC5 barcosC5 = (2, 2) ∧
    ¬ vecinoOrt (0, 0) (2, 2) := by decide

/-- C5 witness: the amended postcondition evaluated on the concrete board
`gridC5`. -/
theorem c5_heuristic_postconditions_witness :
    (fallback_disparo_ia eligePrimero (0, 0) gridC5 barcosC5).1 < 10 ∧
    (fallback_disparo_ia eligePrimero (0, 0) gridC5 barcosC5).2 < 10 ∧
    ¬ marcada gridC5 (fallback_disparo_ia eligePrimero (0, 0) gridC5 barcosC5) :=
  (c5_heuristic_postconditions eligePrimero (0, 0) gridC5 barcosC5
    eligePrimero_mem (by decide) ⟨(5, 5), by decide, by decide, by decide⟩).1

/-! ### The placement validator's guarantees (C8) -/

/-- A coordinate inside the 10×10 board. -/
def EnRango (p : Int × Int) : Prop := 0 ≤ p.1 ∧ p.1 < 10 ∧ 0 ≤ p.2 ∧ p.2 < 10

instance (p : Int × Int) : Decidable (EnRango p) := by unfold EnRango; infer_instance

/-- The list is a rearrangement of a gap-free integer run. -/
def TramoContiguo (l : List Int) : Prop :=
  ∃ a : Int, List.Perm l (intRange a (a + l.length))

/-- Two ships occupy no common cell. -/
def CeldasDisjuntas (b1 b2 : Barco) : Prop :=
  ∀ p ∈ b1.posiciones, p ∉ b2.posiciones

/-- The shape every accepted ship must have: all cells in bounds, and (for
length ≥ 2) all cells on one row with contiguous columns, or all on one
column with contiguous rows. -/
def FormaBarcoValida (ps : List (Int × Int)) : Prop :=
  (∀ p ∈ ps, EnRango p) ∧
  (ps.length ≤ 1 ∨
    ((∃ fila : Int, ∀ p ∈ ps, p.1 = fila) ∧ TramoContiguo (ps.map (·.2))) ∨
    ((∃ col : Int, ∀ p ∈ ps, p.2 = col) ∧ TramoContiguo (ps.map (·.1))))

/-- The board shows `'O'` exactly at the cells of the listed ships. -/
def OcupaExacto (t : Grid) (bs : List Barco) : Prop :=
  ∀ i j : Nat, cellN t i j = 'O' ↔ ∃ b ∈ bs, ((i : Int), (j : Int)) ∈ b.posiciones

theorem cellN_crear_tablero (i j : Nat) : cellN crear_tablero i j = '~' := by
  unfold cellN crear_tablero
  rw [List.getElem?_replicate]
  by_cases hi : i < 10
  · rw [if_pos hi]
    show ((List.replicate 10 '~')[j]?).getD '~' = '~'
    rw [List.getElem?_replicate]
    by_cases hj : j < 10
    · rw [if_pos hj]; rfl
    · rw [if_neg hj]; rfl
  · rw [if_neg hi]
    rfl

theorem coordEq {p : Int × Int} (hp : 0 ≤ p.1 ∧ 0 ≤ p.2) (i j : Nat) :
    (((i : Int), (j : Int)) = p) ↔ (i = p.1.toNat ∧ j = p.2.toNat) := by
  obtain ⟨p1, p2⟩ := p
  rw [Prod.mk.injEq]
  simp only at hp ⊢
  omega

/-- Stamping `'O'` on a list of in-bounds cells: the board stays
well-formed and shows `'O'` exactly at those cells plus wherever it already
did. -/
theorem placeAll_sound : ∀ (ps : List (Int × Int)) (t : Grid), WF10 t →
    (∀ p ∈ ps, EnRango p) →
    WF10 (placeAll t ps) ∧
    ∀ i j : Nat, cellN (placeAll t ps) i j =
      if ((i : Int), (j : Int)) ∈ ps then 'O' else cellN t i j := by
  intro ps
  induction ps with
  | nil =>
    intro t hwf _
    exact ⟨hwf, fun i j => by simp [placeAll]⟩
  | cons p ps ih =>
    intro t hwf hran
    have hp := hran p (List.mem_cons_self p ps)
    obtain ⟨g', hset, hwf', hcell⟩ :=
      gridSet_wf hwf hp.1 hp.2.1 hp.2.2.1 hp.2.2.2 'O'
    have hplace : placeAll t (p :: ps) = placeAll g' ps := by
      show placeAll ((gridSet t p.1 p.2 'O').getD t) ps = placeAll g' ps
      rw [hset]
      rfl
    obtain ⟨hwf'', hcell''⟩ := ih g' hwf' (fun q hq => hran q (List.mem_cons_of_mem p hq))
    rw [hplace]
    refine ⟨hwf'', fun i j => ?_⟩
    rw [hcell'' i j, hcell i j]
    by_cases hmem : ((i : Int), (j : Int)) ∈ ps
    · rw [if_pos hmem, if_pos (List.mem_cons_of_mem p hmem)]
    · by_cases heq : ((i : Int), (j : Int)) = p
      · rw [if_neg hmem, if_pos ((coordEq ⟨hp.1, hp.2.2.1⟩ i j).mp heq),
          if_pos (by rw [List.mem_cons]; exact Or.inl heq)]
      · rw [if_neg hmem, if_neg (fun hc => heq ((coordEq ⟨hp.1, hp.2.2.1⟩ i j).mpr hc)),
          if_neg (by
            rw [List.mem_cons]
            rintro (h | h)
            · exact heq h
            · exact hmem h)]

/-- A list whose sorted version is `range(min, max+1)` is a rearrangement
of a gap-free integer run. -/
theorem tramo_of_sorted_eq {l : List Int}
    (h : l.insertionSort (· ≤ ·) = intRange (listMin l) (listMax l + 1)) :
    TramoContiguo l := by
  refine ⟨listMin l, ?_⟩
  have hperm : List.Perm l (l.insertionSort (· ≤ ·)) := (List.perm_insertionSort _ l).symm
  rw [h] at hperm
  have hlen : l.length = (intRange (listMin l) (listMax l + 1)).length := hperm.length_eq
  have hrlen : (intRange (listMin l) (listMax l + 1)).length =
      (listMax l + 1 - listMin l).toNat := by
    rw [intRange, List.length_map, List.length_range]
  have hl2 : l.length = (listMax l + 1 - listMin l).toNat := by rw [hlen, hrlen]
  have hre : intRange (listMin l) (listMax l + 1) =
      intRange (listMin l) (listMin l + l.length) := by
    unfold intRange
    congr 2
    omega
  rw [hre] at hperm
  exact hperm

/-- What `validar_posicion_barco t ps = True` guarantees: cells in bounds,
cells free on `t`, and a straight contiguous shape. -/
theorem validar_sound {t : Grid} {ps : List (Int × Int)}
    (h : validar_posicion_barco t ps = true) :
    (∀ p ∈ ps, EnRango p) ∧ (∀ p ∈ ps, gridGet t p.1 p.2 = some '~') ∧
    FormaBarcoValida ps := by
  unfold validar_posicion_barco at h
  dsimp only at h
  split at h
  · exact absurd h (by simp)
  · next h1 =>
    have hb : ∀ p ∈ ps, EnRango p := by
      have hall := not_not.mp h1
      rw [List.all_eq_true] at hall
      intro p hp
      have := hall p hp
      rwa [decide_eq_true_eq] at this
    split at h
    · exact absurd h (by simp)
    · next h2 =>
      have hfree : ∀ p ∈ ps, gridGet t p.1 p.2 = some '~' := by
        have hall := not_not.mp h2
        rw [List.all_eq_true] at hall
        intro p hp
        have := hall p hp
        rwa [decide_eq_true_eq] at this
      refine ⟨hb, hfree, hb, ?_⟩
      split at h
      · next hlen => exact Or.inl hlen
      · next hlen =>
        split at h
        · exact absurd h (by simp)
        · split at h
          · next hes =>
            rw [decide_eq_true_eq] at h
            refine Or.inr (Or.inl ⟨⟨(ps.headD (0, 0)).1, ?_⟩, tramo_of_sorted_eq h⟩)
            rw [List.all_eq_true] at hes
            intro p hp
            have := hes p hp
            rwa [decide_eq_true_eq] at this
          · next hes =>
            next hhv =>
              rw [decide_eq_true_eq] at h
              have hv : ps.all (fun p => decide (p.2 = (ps.headD (0, 0)).2)) = true := by
                rcases Bool.or_eq_true_iff.mp (not_not.mp hhv) with hh | hv
                · exact absurd hh hes
                · exact hv
              refine Or.inr (Or.inr ⟨⟨(ps.headD (0, 0)).2, ?_⟩, tramo_of_sorted_eq h⟩)
              rw [List.all_eq_true] at hv
              intro p hp
              have := hv p hp
              rwa [decide_eq_true_eq] at this

theorem ocupaExacto_vacio : OcupaExacto crear_tablero [] := by
  intro i j
  constructor
  · intro h
    rw [cellN_crear_tablero] at h
    exact absurd h (by decide)
  · rintro ⟨b, hb, -⟩
    exact absurd hb (List.not_mem_nil b)

/-- Soundness of the per-ship placement loop: when it accepts, every
submitted ship was found in the catalog with the right cell count and a
straight, contiguous, in-bounds shape; the accumulated fleet is the input
fleet plus one `Barco` per submitted ship, pairwise disjoint; and the
scratch board shows `'O'` exactly at the accumulated ships' cells. -/
theorem colocarLoop_sound : ∀ (fl : List ColocacionBarco) (t : Grid) (acc : List Barco)
    (t' : Grid) (acc' : List Barco),
    WF10 t → OcupaExacto t acc →
    (∀ b ∈ acc, ∀ p ∈ b.posiciones, EnRango p) →
    acc.Pairwise CeldasDisjuntas →
    colocarLoop t acc fl = Except.ok (t', acc') →
    (∀ b ∈ fl, (∃ cfg ∈ barcos_config, cfg.1 = b.nombre ∧ b.posiciones.length = cfg.2) ∧
      FormaBarcoValida b.posiciones) ∧
    acc' = acc ++ fl.map (fun b => ⟨b.nombre, b.posiciones, 0, false⟩) ∧
    acc'.Pairwise CeldasDisjuntas ∧
    WF10 t' ∧ OcupaExacto t' acc' ∧
    (∀ b ∈ acc', ∀ p ∈ b.posiciones, EnRango p) := by
  intro fl
  induction fl with
  | nil =>
    intro t acc t' acc' hwf hocc hran hpw h
    simp only [colocarLoop] at h
    injection h with h2
    obtain ⟨rfl, rfl⟩ := Prod.mk.inj h2
    exact ⟨by simp, by simp, hpw, hwf, hocc, hran⟩
  | cons b rest ih =>
    intro t acc t' acc' hwf hocc hran hpw h
    simp only [colocarLoop] at h
    split at h
    · exact Except.noConfusion h
    · next cfg hf =>
      split at h
      · exact Except.noConfusion h
      · next hlen =>
        split at h
        · exact Except.noConfusion h
        · next hval =>
          have hval' : validar_posicion_barco t b.posiciones = true := by
            simpa using hval
          obtain ⟨hbnd, hfree, hforma⟩ := validar_sound hval'
          obtain ⟨hwf1, hcell1⟩ := placeAll_sound b.posiciones t hwf hbnd
          have hocc1 : OcupaExacto (placeAll t b.posiciones)
              (acc ++ [(⟨b.nombre, b.posiciones, 0, false⟩ : Barco)]) := by
            intro i j
            rw [hcell1 i j]
            by_cases hmem : ((i : Int), (j : Int)) ∈ b.posiciones
            · rw [if_pos hmem]
              constructor
              · intro _
                exact ⟨(⟨b.nombre, b.posiciones, 0, false⟩ : Barco), by simp, hmem⟩
              · intro _; rfl
            · rw [if_neg hmem, hocc i j]
              constructor
              · rintro ⟨bb, hbb, hpp⟩
                exact ⟨bb, List.mem_append_left _ hbb, hpp⟩
              · rintro ⟨bb, hbb, hpp⟩
                rcases List.mem_append.mp hbb with hbb | hbb
                · exact ⟨bb, hbb, hpp⟩
                · rw [List.mem_singleton] at hbb
                  subst hbb
                  exact absurd hpp hmem
          have hran1 : ∀ bb ∈ acc ++ [(⟨b.nombre, b.posiciones, 0, false⟩ : Barco)],
              ∀ p ∈ bb.posiciones, EnRango p := by
            intro bb hbb
            rcases List.mem_append.mp hbb with hbb | hbb
            · exact hran bb hbb
            · rw [List.mem_singleton] at hbb
              subst hbb
              exact hbnd
          have hpw1 : (acc ++ [(⟨b.nombre, b.posiciones, 0, false⟩ : Barco)]).Pairwise
              CeldasDisjuntas := by
            rw [List.pairwise_append]
            refine ⟨hpw, by simp, ?_⟩
            intro a ha b' hb'
            rw [List.mem_singleton] at hb'
            subst hb'
            intro p hpa hpnb
            have hpr : EnRango p := hran a ha p hpa
            have hcellO : cellN t p.1.toNat p.2.toNat = 'O' := by
              rw [hocc]
              refine ⟨a, ha, ?_⟩
              have hcp : ((p.1.toNat : Int), (p.2.toNat : Int)) = p := by
                obtain ⟨p1, p2⟩ := p
                obtain ⟨q1, q2, q3, q4⟩ := hpr
                simp only [Prod.mk.injEq]
                constructor <;> omega
              rw [hcp]
              exact hpa
            have hcellT : cellN t p.1.toNat p.2.toNat = '~' := by
              have hg := hfree p hpnb
              rw [gridGet_eq_cellN hwf hpr.1 hpr.2.1 hpr.2.2.1 hpr.2.2.2] at hg
              exact Option.some_inj.mp hg
            rw [hcellO] at hcellT
            exact absurd hcellT (by decide)
          obtain ⟨hrest, hacc, hpw', hwf', hocc', hran'⟩ :=
            ih _ _ _ _ hwf1 hocc1 hran1 hpw1 h
          refine ⟨?_, ?_, hpw', hwf', hocc', hran'⟩
          · intro bb hbb
            rcases List.mem_cons.mp hbb with rfl | hbb
            · refine ⟨⟨cfg, List.mem_of_find?_eq_some hf, ?_, not_not.mp hlen⟩, hforma⟩
              have := List.find?_some hf
              rwa [beq_iff_eq] at this
            · exact hrest bb hbb
          · rw [hacc]
            simp

/-- C8: when a fleet submission is accepted, the submitted names are
exactly the catalog names (as a multiset), every ship matches its catalog
length, lies in bounds in a straight contiguous line, and no two ships
overlap; hence any submission containing a diagonal/non-contiguous/
out-of-bounds/overlapping/wrong-count/unknown-name ship, or a name multiset
differing from the catalog, is rejected.  Moreover the catalog name-set
check runs before any per-ship validation: a submission whose sorted names
differ from the sorted catalog names draws that error whatever its ships
contain. -/
theorem c8_placement_validator_rejects_invalid (s : GameState)
    (fl : List ColocacionBarco) :
    ((colocar_barcos s fl).2 = Outcome.ok →
      List.Perm (fl.map (·.nombre)) (barcos_config.map (·.1)) ∧
      (∀ b ∈ fl, (∃ cfg ∈ barcos_config, cfg.1 = b.nombre ∧ b.posiciones.length = cfg.2) ∧
        FormaBarcoValida b.posiciones) ∧
      fl.Pairwise (fun b1 b2 => ∀ p ∈ b1.posiciones, p ∉ b2.posiciones)) ∧
    (s.fase = "colocacion" →
      (fl.map (·.nombre)).insertionSort (fun a b => strPyLe a b = true) ≠
        (barcos_config.map (·.1)).insertionSort (fun a b => strPyLe a b = true) →
      colocar_barcos s fl = (s, Outcome.httpErr "Debes colocar todos los barcos requeridos.")) := by
  constructor
  · intro hok
    unfold colocar_barcos at hok
    split at hok
    · exact absurd hok (by simp)
    · dsimp only at hok
      split at hok
      · exact absurd hok (by simp)
      · next hsort =>
        split at hok
        · exact absurd hok (by simp)
        · next tab bj heq =>
          have hsort' := not_not.mp hsort
          refine ⟨?_, ?_, ?_⟩
          · have h1 : List.Perm (fl.map (·.nombre))
                ((fl.map (·.nombre)).insertionSort (fun a b => strPyLe a b = true)) :=
              (List.perm_insertionSort _ _).symm
            rw [hsort'] at h1
            exact h1.trans (List.perm_insertionSort _ _)
          · exact (colocarLoop_sound fl crear_tablero [] tab bj wf10_crear_tablero
              ocupaExacto_vacio (by simp) (by simp) heq).1
          · have hpw := (colocarLoop_sound fl crear_tablero [] tab bj wf10_crear_tablero
              ocupaExacto_vacio (by simp) (by simp) heq).2.2.1
            obtain ⟨-, hacc, -, -, -, -⟩ := colocarLoop_sound fl crear_tablero [] tab bj
              wf10_crear_tablero ocupaExacto_vacio (by simp) (by simp) heq
            rw [hacc] at hpw
            rw [List.nil_append, List.pairwise_map] at hpw
            exact hpw
  · intro hfase hmis
    unfold colocar_barcos
    rw [if_neg (not_not_intro hfase)]
    dsimp only
    rw [if_pos hmis]

/-- A fully valid concrete fleet submission. -/
def flotaC8 : List ColocacionBarco :=
  [⟨"Portaaviones", [(0, 0), (0, 1), (0, 2), (0, 3), (0, 4)]⟩,
   ⟨"Acorazado", [(1, 0), (1, 1), (1, 2), (1, 3)]⟩,
   ⟨"Crucero", [(2, 0), (2, 1), (2, 2)]⟩,
   ⟨"Submarino", [(3, 0), (3, 1), (3, 2)]⟩,
   ⟨"Destructor", [(4, 0), (4, 1)]⟩]

/-- C8 witness: the validator's guarantees evaluated on a concrete
accepted submission. -/
theorem c8_placement_validator_rejects_invalid_witness :
    List.Perm (flotaC8.map (·.nombre)) (barcos_config.map (·.1)) ∧
    (∀ b ∈ flotaC8, (∃ cfg ∈ barcos_config, cfg.1 = b.nombre ∧ b.posiciones.length = cfg.2) ∧
      FormaBarcoValida b.posiciones) ∧
    flotaC8.Pairwise (fun b1 b2 => ∀ p ∈ b1.posiciones, p ∉ b2.posiciones) :=
  (c8_placement_validator_rejects_invalid (initState crear_tablero []) flotaC8).1 (by decide)

/-! ### The owner-grid/fleet invariant of reachable states (C10) -/

/-- The invariant tying one side's own board to its fleet: the board is
10×10; every `'O'` cell belongs to some listed ship; ships are pairwise
disjoint; and every ship cell is in bounds. -/
def OwnerInv (t : Grid) (bs : List Barco) : Prop :=
  WF10 t ∧
  (∀ i j : Nat, cellN t i j = 'O' → ∃ b ∈ bs, ((i : Int), (j : Int)) ∈ b.posiciones) ∧
  bs.Pairwise CeldasDisjuntas ∧
  (∀ b ∈ bs, ∀ p ∈ b.posiciones, EnRango p)

/-- The invariant for both sides of a game state. -/
def InvJuego (s : GameState) : Prop :=
  OwnerInv s.tablero_jugador.tablero s.tablero_jugador.barcos ∧
  OwnerInv s.tablero_ia.tablero s.tablero_ia.barcos

theorem gridGet_some_bounds {g : Grid} (hwf : WF10 g) {x y : Int} {c : Char}
    (h : gridGet g x y = some c) (hx0 : 0 ≤ x) (hy0 : 0 ≤ y) : x < 10 ∧ y < 10 := by
  rcases lt_or_ge x 10 with hx | hx
  · rcases lt_or_ge y 10 with hy | hy
    · exact ⟨hx, hy⟩
    · exfalso
      obtain ⟨row, hrow, hrlen⟩ := row_of_wf10 hwf (show x.toNat < 10 by omega)
      have hgx : pyGet g x = some row := by
        rw [pyGet_of_nonneg_lt hx0 (by rw [hwf.1]; omega)]
        exact hrow
      rw [gridGet, hgx] at h
      have h2 : pyGet row y = some c := h
      have h3 : pyGet row y = none := by
        rw [pyGet, pyIdx, if_pos hy0, if_neg (by rw [hrlen]; push_cast; omega)]
        rfl
      rw [h3] at h2
      exact Option.noConfusion h2
  · exfalso
    have : pyGet g x = none := by
      rw [pyGet, pyIdx, if_pos hx0, if_neg (by rw [hwf.1]; push_cast; omega)]
      rfl
    rw [gridGet, this] at h
    exact Option.noConfusion h

/-- `dispararBarcos` never changes ship identities or cells — only hit
counters and sunk flags. -/
theorem dispararBarcos_posiciones : ∀ {bs : List Barco} {x y : Int}
    {r : List Barco × String × Bool × Option String},
    dispararBarcos x y bs = some r →
    r.1.map Barco.posiciones = bs.map Barco.posiciones := by
  intro bs
  induction bs with
  | nil => intro x y r h; exact Option.noConfusion h
  | cons b rest ih =>
    intro x y r h
    rw [dispararBarcos] at h
    split at h
    · dsimp only at h
      split at h
      · rw [Option.some_inj] at h
        subst h
        simp
      · rw [Option.some_inj] at h
        subst h
        simp
    · rw [Option.map_eq_some'] at h
      obtain ⟨r0, hr0, hfr⟩ := h
      subst hfr
      simp only [List.map_cons]
      rw [ih hr0]

/-- When some ship holds the cell, the scan finds one. -/
theorem dispararBarcos_isSome : ∀ {bs : List Barco} {x y : Int},
    (∃ b ∈ bs, (x, y) ∈ b.posiciones) → (dispararBarcos x y bs).isSome = true := by
  intro bs
  induction bs with
  | nil =>
    intro x y h
    obtain ⟨b, hb, -⟩ := h
    exact absurd hb (List.not_mem_nil b)
  | cons b rest ih =>
    intro x y h
    rw [dispararBarcos]
    split
    · dsimp only
      split <;> rfl
    · next hmem =>
      obtain ⟨b', hb', hp⟩ := h
      rcases List.mem_cons.mp hb' with rfl | hb'
      · exact absurd hp hmem
      · rw [Option.isSome_map']
        exact ih ⟨b', hb', hp⟩

/-- Membership of a cell in some ship transfers along fleets with equal
cell lists. -/
theorem exists_mem_of_posiciones_eq {bs bs' : List Barco}
    (h : bs'.map Barco.posiciones = bs.map Barco.posiciones) {p : Int × Int}
    (hex : ∃ b ∈ bs, p ∈ b.posiciones) : ∃ b ∈ bs', p ∈ b.posiciones := by
  obtain ⟨b, hb, hp⟩ := hex
  have : b.posiciones ∈ bs'.map Barco.posiciones := by
    rw [h]
    exact List.mem_map_of_mem _ hb
  rw [List.mem_map] at this
  obtain ⟨b', hb', hbp⟩ := this
  exact ⟨b', hb', hbp ▸ hp⟩

/-- Pairwise cell-disjointness transfers along fleets with equal cell
lists. -/
theorem pairwise_of_posiciones_eq {bs bs' : List Barco}
    (h : bs'.map Barco.posiciones = bs.map Barco.posiciones)
    (hpw : bs.Pairwise CeldasDisjuntas) : bs'.Pairwise CeldasDisjuntas := by
  have h1 : (bs.map Barco.posiciones).Pairwise (fun ps qs => ∀ p ∈ ps, p ∉ qs) := by
    rw [List.pairwise_map]
    exact hpw
  rw [← h, List.pairwise_map] at h1
  exact h1

/-- In-bounds ship cells transfer along fleets with equal cell lists. -/
theorem enRango_of_posiciones_eq {bs bs' : List Barco}
    (h : bs'.map Barco.posiciones = bs.map Barco.posiciones)
    (hb : ∀ b ∈ bs, ∀ p ∈ b.posiciones, EnRango p) :
    ∀ b ∈ bs', ∀ p ∈ b.posiciones, EnRango p := by
  intro b' hb' p hp
  have : b'.posiciones ∈ bs.map Barco.posiciones := by
    rw [← h]
    exact List.mem_map_of_mem _ hb'
  rw [List.mem_map] at this
  obtain ⟨b, hbm, hbp⟩ := this
  exact hb b hbm p (hbp ▸ hp)

/-- Stamping one new ship whose cells are free and in bounds preserves the
exact-occupancy invariant and extends the fleet disjointly. -/
theorem place_step {t : Grid} {bs : List Barco} (nb : Barco)
    (hwf : WF10 t) (hocc : OcupaExacto t bs)
    (hran : ∀ b ∈ bs, ∀ p ∈ b.posiciones, EnRango p)
    (hpw : bs.Pairwise CeldasDisjuntas)
    (hbnd : ∀ p ∈ nb.posiciones, EnRango p)
    (hfree : ∀ p ∈ nb.posiciones, gridGet t p.1 p.2 = some '~') :
    WF10 (placeAll t nb.posiciones) ∧
    OcupaExacto (placeAll t nb.posiciones) (bs ++ [nb]) ∧
    (∀ b ∈ bs ++ [nb], ∀ p ∈ b.posiciones, EnRango p) ∧
    (bs ++ [nb]).Pairwise CeldasDisjuntas := by
  obtain ⟨hwf1, hcell1⟩ := placeAll_sound nb.posiciones t hwf hbnd
  refine ⟨hwf1, ?_, ?_, ?_⟩
  · intro i j
    rw [hcell1 i j]
    by_cases hmem : ((i : Int), (j : Int)) ∈ nb.posiciones
    · rw [if_pos hmem]
      constructor
      · intro _
        exact ⟨nb, by simp, hmem⟩
      · intro _; rfl
    · rw [if_neg hmem, hocc i j]
      constructor
      · rintro ⟨bb, hbb, hpp⟩
        exact ⟨bb, List.mem_append_left _ hbb, hpp⟩
      · rintro ⟨bb, hbb, hpp⟩
        rcases List.mem_append.mp hbb with hbb | hbb
        · exact ⟨bb, hbb, hpp⟩
        · rw [List.mem_singleton] at hbb
          subst hbb
          exact absurd hpp hmem
  · intro bb hbb
    rcases List.mem_append.mp hbb with hbb | hbb
    · exact hran bb hbb
    · rw [List.mem_singleton] at hbb
      subst hbb
      exact hbnd
  · rw [List.pairwise_append]
    refine ⟨hpw, by simp, ?_⟩
    intro a ha b' hb'
    rw [List.mem_singleton] at hb'
    subst hb'
    intro p hpa hpnb
    have hpr : EnRango p := hran a ha p hpa
    have hcellO : cellN t p.1.toNat p.2.toNat = 'O' := by
      rw [hocc]
      refine ⟨a, ha, ?_⟩
      have hcp : ((p.1.toNat : Int), (p.2.toNat : Int)) = p := by
        obtain ⟨p1, p2⟩ := p
        obtain ⟨q1, q2, q3, q4⟩ := hpr
        simp only [Prod.mk.injEq]
        constructor <;> omega
      rw [hcp]
      exact hpa
    have hcellT : cellN t p.1.toNat p.2.toNat = '~' := by
      have hg := hfree p hpnb
      rw [gridGet_eq_cellN hwf hpr.1 hpr.2.1 hpr.2.2.1 hpr.2.2.2] at hg
      exact Option.some_inj.mp hg
    rw [hcellO] at hcellT
    exact absurd hcellT (by decide)

/-- One accepted draw of `colocar_barco_ia`, abstracted over the generated
position list: free nonneg cells extend the invariant. -/
theorem ia_once_branch {t : Grid} {bs : List Barco} {nombre : String}
    {ps : List (Int × Int)} {t1 : Grid} {bs1 : List Barco}
    (hwf : WF10 t) (hocc : OcupaExacto t bs)
    (hran : ∀ b ∈ bs, ∀ p ∈ b.posiciones, EnRango p)
    (hpw : bs.Pairwise CeldasDisjuntas)
    (hnn : ∀ p ∈ ps, 0 ≤ p.1 ∧ 0 ≤ p.2)
    (hall : ps.all (fun p => decide (gridGet t p.1 p.2 = some '~')) = true)
    (h1 : placeAll t ps = t1)
    (h2 : bs ++ [(⟨nombre, ps, 0, false⟩ : Barco)] = bs1) :
    WF10 t1 ∧ OcupaExacto t1 bs1 ∧
    (∀ b ∈ bs1, ∀ p ∈ b.posiciones, EnRango p) ∧ bs1.Pairwise CeldasDisjuntas := by
  rw [List.all_eq_true] at hall
  have hfree : ∀ p ∈ ps, gridGet t p.1 p.2 = some '~' := by
    intro p hp
    have := hall p hp
    rwa [decide_eq_true_eq] at this
  have hbnd : ∀ p ∈ ps, EnRango p := by
    intro p hp
    have hlt := gridGet_some_bounds hwf (hfree p hp) (hnn p hp).1 (hnn p hp).2
    exact ⟨(hnn p hp).1, hlt.1, (hnn p hp).2, hlt.2⟩
  obtain ⟨pwf, pocc, pran, ppw⟩ :=
    place_step ⟨nombre, ps, 0, false⟩ hwf hocc hran hpw hbnd hfree
  rw [h1] at pwf pocc
  rw [h2] at pocc pran ppw
  exact ⟨pwf, pocc, pran, ppw⟩

/-- The auto-placement of the computer fleet establishes the exact
occupancy invariant. -/
theorem buildIA_sound : ∀ {cfgs : List (String × Nat)} {t : Grid} {bs : List Barco}
    {t' : Grid} {bs' : List Barco},
    BuildIA t bs cfgs t' bs' →
    WF10 t → OcupaExacto t bs →
    (∀ b ∈ bs, ∀ p ∈ b.posiciones, EnRango p) →
    bs.Pairwise CeldasDisjuntas →
    WF10 t' ∧ OcupaExacto t' bs' ∧
    (∀ b ∈ bs', ∀ p ∈ b.posiciones, EnRango p) ∧
    bs'.Pairwise CeldasDisjuntas := by
  intro cfgs t bs t' bs' h
  induction h with
  | nil t bs =>
    intro hwf hocc hran hpw
    exact ⟨hwf, hocc, hran, hpw⟩
  | cons cfg orientacion x y hstep hrest ih =>
    intro hwf hocc hran hpw
    unfold colocar_barco_ia_once at hstep
    dsimp only at hstep
    split at hstep <;>
    · split at hstep
      · next hall =>
        rw [Option.some_inj] at hstep
        obtain ⟨h1, h2⟩ := Prod.mk.inj hstep
        obtain ⟨pwf, pocc, pran, ppw⟩ := ia_once_branch hwf hocc hran hpw
          (by
            intro p hp
            rw [List.mem_map] at hp
            obtain ⟨k, -, rfl⟩ := hp
            constructor <;> omega)
          hall h1 h2
        exact ih pwf pocc pran ppw
      · exact Option.noConfusion hstep

/-- `procesar_disparo` preserves the owner invariant of the defending
side: positions never change, `'O'` cells only disappear. -/
theorem procesar_preserves {t : Grid} {bs : List Barco} (x y : Int)
    (hinv : OwnerInv t bs) :
    OwnerInv (procesar_disparo t bs x y).1 (procesar_disparo t bs x y).2.1 := by
  obtain ⟨hwf, hocc, hpw, hran⟩ := hinv
  unfold procesar_disparo
  split
  · exact ⟨hwf, hocc, hpw, hran⟩
  · next hb =>
    have hbnd : 0 ≤ x ∧ x < 10 ∧ 0 ≤ y ∧ y < 10 := not_not.mp hb
    split
    · next hO =>
      obtain ⟨g', hset, hwf', hcell⟩ :=
        gridSet_wf hwf hbnd.1 hbnd.2.1 hbnd.2.2.1 hbnd.2.2.2 'X'
      dsimp only
      rw [hset]
      have hOcell : ∀ i j : Nat, cellN g' i j = 'O' →
          ∃ b ∈ bs, ((i : Int), (j : Int)) ∈ b.posiciones := by
        intro i j hc
        rw [hcell i j] at hc
        split at hc
        · exact absurd hc (by decide)
        · exact hocc i j hc
      split
      · next r heq =>
        have hpos := dispararBarcos_posiciones heq
        exact ⟨hwf', fun i j hc => exists_mem_of_posiciones_eq hpos (hOcell i j hc),
          pairwise_of_posiciones_eq hpos hpw, enRango_of_posiciones_eq hpos hran⟩
      · exact ⟨hwf', hOcell, hpw, hran⟩
    · split
      · exact ⟨hwf, hocc, hpw, hran⟩
      · obtain ⟨g', hset, hwf', hcell⟩ :=
          gridSet_wf hwf hbnd.1 hbnd.2.1 hbnd.2.2.1 hbnd.2.2.2 'F'
        rw [hset]
        dsimp only
        rw [Option.getD_some]
        refine ⟨hwf', ?_, hpw, hran⟩
        intro i j hc
        rw [hcell i j] at hc
        split at hc
        · exact absurd hc (by decide)
        · exact hocc i j hc

/-- States reachable from `/iniciar-juego` through placement, player shots
and computer turns (with any oracle/heuristic coordinate), whatever the
outcome of each call. -/
inductive Reachable : GameState → Prop
  | inicio {tIA : Grid} {bsIA : List Barco} :
      BuildIA crear_tablero [] barcos_config tIA bsIA →
      Reachable (initState tIA bsIA)
  | coloca {s s' : GameState} {fl : List ColocacionBarco} {o : Outcome} :
      Reachable s → colocar_barcos s fl = (s', o) → Reachable s'
  | dispara {s s' : GameState} {x y : Int} {o : Outcome} :
      Reachable s → disparar s x y = (s', o) → Reachable s'
  | turnoIA {s s' : GameState} {x y : Int} {o : Outcome} :
      Reachable s → turno_ia s x y = (s', o) → Reachable s'

theorem initState_inv {tIA : Grid} {bsIA : List Barco}
    (h : BuildIA crear_tablero [] barcos_config tIA bsIA) :
    InvJuego (initState tIA bsIA) := by
  obtain ⟨hwf, hocc, hran, hpw⟩ :=
    buildIA_sound h wf10_crear_tablero ocupaExacto_vacio (by simp) (by simp)
  refine ⟨⟨wf10_crear_tablero, ?_, List.Pairwise.nil,
      fun b hb => absurd hb (List.not_mem_nil b)⟩,
    hwf, fun i j hc => (hocc i j).mp hc, hpw, hran⟩
  intro i j hc
  have hc' : cellN crear_tablero i j = 'O' := hc
  rw [cellN_crear_tablero] at hc'
  exact absurd hc' (by decide)

theorem colocar_barcos_preserves {s s' : GameState} {fl : List ColocacionBarco}
    {o : Outcome} (h : colocar_barcos s fl = (s', o)) (hinv : InvJuego s) :
    InvJuego s' := by
  unfold colocar_barcos at h
  split at h
  · obtain ⟨rfl, -⟩ := Prod.mk.inj h
    exact hinv
  · dsimp only at h
    split at h
    · obtain ⟨rfl, -⟩ := Prod.mk.inj h
      exact hinv
    · split at h
      · obtain ⟨rfl, -⟩ := Prod.mk.inj h
        exact hinv
      · next tab bj heq =>
        obtain ⟨rfl, -⟩ := Prod.mk.inj h
        obtain ⟨-, -, hpw, hwf, hocc, hran⟩ := colocarLoop_sound fl crear_tablero [] tab bj
          wf10_crear_tablero ocupaExacto_vacio (by simp) (by simp) heq
        exact ⟨⟨hwf, fun i j hc => (hocc i j).mp hc, hpw, hran⟩, hinv.2⟩

theorem disparar_preserves {s s' : GameState} {x y : Int} {o : Outcome}
    (h : disparar s x y = (s', o)) (hinv : InvJuego s) : InvJuego s' := by
  by_cases hfase : s.fase = "colocacion"
  · have hd : disparar s x y = (s, Outcome.httpErr "Primero debes colocar tus barcos.") := by
      unfold disparar; rw [if_pos hfase]
    rw [hd] at h
    obtain ⟨rfl, -⟩ := Prod.mk.inj h
    exact hinv
  · by_cases hgo : s.game_over = true
    · have hd : disparar s x y = (s, Outcome.ok) := by
        unfold disparar; rw [if_neg hfase, if_pos (by simp [hgo])]
      rw [hd] at h
      obtain ⟨rfl, -⟩ := Prod.mk.inj h
      exact hinv
    · have hgo' : s.game_over = false := by simpa using hgo
      by_cases hturno : s.turno_jugador = true
      · revert h
        rw [disparar_main s x y hfase hgo' hturno]
        dsimp only
        rcases hr : (procesar_disparo s.tablero_ia.tablero s.tablero_ia.barcos x y).2.2 with
          _ | ⟨res, ac, bh⟩ <;>
        · repeat' split
          all_goals
            intro h
          all_goals
            obtain ⟨rfl, -⟩ := Prod.mk.inj h
          all_goals
            exact ⟨hinv.1, procesar_preserves x y hinv.2⟩
      · have hd : disparar s x y = (s, Outcome.httpErr "No es tu turno.") := by
          unfold disparar
          rw [if_neg hfase, if_neg (by simp [hgo']), if_pos (by simpa using hturno)]
        rw [hd] at h
        obtain ⟨rfl, -⟩ := Prod.mk.inj h
        exact hinv

theorem turno_ia_preserves {s s' : GameState} {x y : Int} {o : Outcome}
    (h : turno_ia s x y = (s', o)) (hinv : InvJuego s) : InvJuego s' := by
  by_cases hfase : s.fase = "colocacion"
  · have hd : turno_ia s x y = (s, Outcome.httpErr "El jugador aún debe colocar sus barcos.") := by
      unfold turno_ia; rw [if_pos hfase]
    rw [hd] at h
    obtain ⟨rfl, -⟩ := Prod.mk.inj h
    exact hinv
  · by_cases hgo : s.game_over = true
    · have hd : turno_ia s x y = (s, Outcome.ok) := by
        unfold turno_ia; rw [if_neg hfase, if_pos (by simp [hgo])]
      rw [hd] at h
      obtain ⟨rfl, -⟩ := Prod.mk.inj h
      exact hinv
    · have hgo' : s.game_over = false := by simpa using hgo
      by_cases hturno : s.turno_jugador = false
      · revert h
        rw [turno_ia_main s x y hfase hgo' hturno]
        dsimp only
        rcases hr : (procesar_disparo s.tablero_jugador.tablero s.tablero_jugador.barcos x y).2.2 with
          _ | ⟨res, ac, bh⟩ <;>
        · repeat' split
          all_goals
            intro h
          all_goals
            obtain ⟨rfl, -⟩ := Prod.mk.inj h
          all_goals
            exact ⟨procesar_preserves x y hinv.1, hinv.2⟩
      · have hd : turno_ia s x y = (s, Outcome.httpErr "Es el turno del jugador.") := by
          unfold turno_ia
          rw [if_neg hfase, if_neg (by simp [hgo']), if_pos (by simpa using hturno)]
        rw [hd] at h
        obtain ⟨rfl, -⟩ := Prod.mk.inj h
        exact hinv

/-- Every reachable state satisfies the owner invariant on both sides. -/
theorem reachable_inv {s : GameState} (h : Reachable s) : InvJuego s := by
  induction h with
  | inicio hb => exact initState_inv hb
  | coloca _ hstep ih => exact colocar_barcos_preserves hstep ih
  | dispara _ hstep ih => exact disparar_preserves hstep ih
  | turnoIA _ hstep ih => exact turno_ia_preserves hstep ih

theorem ownerInv_unique {t : Grid} {bs : List Barco} (hinv : OwnerInv t bs)
    (i j : Nat) (hc : cellN t i j = 'O') :
    ∃ b, b ∈ bs ∧ ((i : Int), (j : Int)) ∈ b.posiciones ∧
      ∀ b', b' ∈ bs → ((i : Int), (j : Int)) ∈ b'.posiciones → b' = b := by
  obtain ⟨-, hocc, hpw, -⟩ := hinv
  obtain ⟨b, hb, hp⟩ := hocc i j hc
  refine ⟨b, hb, hp, ?_⟩
  intro b' hb' hp'
  by_contra hne
  have hsym : Symmetric (fun a b : Barco => CeldasDisjuntas a b ∨ CeldasDisjuntas b a) :=
    fun a b hab => hab.symm
  have hpw2 : bs.Pairwise (fun a b : Barco => CeldasDisjuntas a b ∨ CeldasDisjuntas b a) :=
    hpw.imp fun hab => Or.inl hab
  rcases hpw2.forall hsym hb hb' (fun he => hne he.symm) with hd | hd
  · exact hd _ hp hp'
  · exact hd _ hp' hp

theorem procesar_isSome {t : Grid} {bs : List Barco} (hinv : OwnerInv t bs)
    (x y : Int) (hx0 : 0 ≤ x) (hx : x < 10) (hy0 : 0 ≤ y) (hy : y < 10) :
    ((procesar_disparo t bs x y).2.2).isSome = true := by
  obtain ⟨hwf, hocc, -, -⟩ := hinv
  unfold procesar_disparo
  rw [if_neg (not_not_intro ⟨hx0, hx, hy0, hy⟩)]
  by_cases hO : gridGet t x y = some 'O'
  · rw [if_pos hO]
    dsimp only
    have hcn := gridGet_eq_cellN hwf hx0 hx hy0 hy
    rw [hcn] at hO
    have hcell : cellN t x.toNat y.toNat = 'O' := Option.some_inj.mp hO
    have hex := hocc _ _ hcell
    have hxx : ((x.toNat : Int), (y.toNat : Int)) = (x, y) := by
      rw [Prod.mk.injEq]
      constructor <;> omega
    rw [hxx] at hex
    have hsome := dispararBarcos_isSome hex
    rcases hd : dispararBarcos x y bs with _ | r
    · rw [hd] at hsome
      exact absurd hsome (by simp)
    · obtain ⟨bs', res, ac, hun⟩ := r
      rfl
  · rw [if_neg hO]
    split
    · rfl
    · rfl

/-- C10: in every state reachable from a new game by placements, player
shots and computer turns, every `'O'` (SHIP) cell of either owner board
belongs to exactly one ship of the corresponding fleet, and therefore the
shot resolver returns a result triple (never the no-ship fall-through that
would make the handler's tuple unpacking raise) on every in-bounds shot
against either board. -/
theorem c10_ship_cells_unique_resolver_total (s : GameState) (h : Reachable s) :
    (∀ i j : Nat, cellN s.tablero_jugador.tablero i j = 'O' →
      ∃ b, b ∈ s.tablero_jugador.barcos ∧ ((i : Int), (j : Int)) ∈ b.posiciones ∧
        ∀ b', b' ∈ s.tablero_jugador.barcos → ((i : Int), (j : Int)) ∈ b'.posiciones → b' = b) ∧
    (∀ i j : Nat, cellN s.tablero_ia.tablero i j = 'O' →
      ∃ b, b ∈ s.tablero_ia.barcos ∧ ((i : Int), (j : Int)) ∈ b.posiciones ∧
        ∀ b', b' ∈ s.tablero_ia.barcos → ((i : Int), (j : Int)) ∈ b'.posiciones → b' = b) ∧
    (∀ x y : Int, 0 ≤ x → x < 10 → 0 ≤ y → y < 10 →
      ((procesar_disparo s.tablero_jugador.tablero s.tablero_jugador.barcos x y).2.2).isSome = true ∧
      ((procesar_disparo s.tablero_ia.tablero s.tablero_ia.barcos x y).2.2).isSome = true) := by
  obtain ⟨hj, hia⟩ := reachable_inv h
  exact ⟨ownerInv_unique hj, ownerInv_unique hia,
    fun x y hx0 hx hy0 hy =>
      ⟨procesar_isSome hj x y hx0 hx hy0 hy, procesar_isSome hia x y hx0 hx hy0 hy⟩⟩

/-- One accepted draw of the computer auto-placement, used to build a
concrete reachable initial state. -/
def iaPaso (k : Nat) (cfg : String × Nat) (tb : Grid × List Barco) : Grid × List Barco :=
  (colocar_barco_ia_once tb.1 tb.2 cfg.2 cfg.1 0 k 0).getD tb

def pasoIA1 : Grid × List Barco := iaPaso 0 ("Portaaviones", 5) (crear_tablero, [])

def pasoIA2 : Grid × List Barco := iaPaso 1 ("Acorazado", 4) pasoIA1

def pasoIA3 : Grid × List Barco := iaPaso 2 ("Crucero", 3) pasoIA2

def pasoIA4 : Grid × List Barco := iaPaso 3 ("Submarino", 3) pasoIA3

def pasoIA5 : Grid × List Barco := iaPaso 4 ("Destructor", 2) pasoIA4

theorem iaEq1 : colocar_barco_ia_once crear_tablero [] 5 "Portaaviones" 0 0 0 = some pasoIA1 := by
  decide

theorem iaEq2 : colocar_barco_ia_once pasoIA1.1 pasoIA1.2 4 "Acorazado" 0 1 0 = some pasoIA2 := by
  decide

theorem iaEq3 : colocar_barco_ia_once pasoIA2.1 pasoIA2.2 3 "Crucero" 0 2 0 = some pasoIA3 := by
  decide

theorem iaEq4 : colocar_barco_ia_once pasoIA3.1 pasoIA3.2 3 "Submarino" 0 3 0 = some pasoIA4 := by
  decide

theorem iaEq5 : colocar_barco_ia_once pasoIA4.1 pasoIA4.2 2 "Destructor" 0 4 0 = some pasoIA5 := by
  decide

theorem buildIA_demo : BuildIA crear_tablero [] barcos_config pasoIA5.1 pasoIA5.2 :=
  BuildIA.cons ("Portaaviones", 5) 0 0 0 iaEq1
    (BuildIA.cons ("Acorazado", 4) 0 1 0 iaEq2
      (BuildIA.cons ("Crucero", 3) 0 2 0 iaEq3
        (BuildIA.cons ("Submarino", 3) 0 3 0 iaEq4
          (BuildIA.cons ("Destructor", 2) 0 4 0 iaEq5
            (BuildIA.nil pasoIA5.1 pasoIA5.2)))))

/-- C10 witness: the resolver is total at `(0, 0)` on both boards of a
concrete freshly started game. -/
theorem c10_ship_cells_unique_resolver_total_witness :
    ((procesar_disparo (initState pasoIA5.1 pasoIA5.2).tablero_jugador.tablero
        (initState pasoIA5.1 pasoIA5.2).tablero_jugador.barcos 0 0).2.2).isSome = true ∧
    ((procesar_disparo (initState pasoIA5.1 pasoIA5.2).tablero_ia.tablero
        (initState pasoIA5.1 pasoIA5.2).tablero_ia.barcos 0 0).2.2).isSome = true :=
  (c10_ship_cells_unique_resolver_total (initState pasoIA5.1 pasoIA5.2)
    (Reachable.inicio buildIA_demo)).2.2 0 0 (by decide) (by decide) (by decide) (by decide)

end HundirLaFlota
